import Mathlib

/- Verification of the Chromecast communication layer
   (modules/stream_out/chromecast/chromecast_communication.cpp).

   The embedding models the connect resource handling, the length-prefixed
   frame codec of sendMessage/recvPacket (header reassembly, normal payload
   reads, oversized-frame draining), the keepalive timeout machine, and the
   outbound message builders with their two request-id counters. External
   primitives (poll, tls_Recv, net_ConnectTCP, ...) are modelled by oracles
   describing their observable results, exactly at the interface the source
   uses them. -/

/- ===== Protocol constants ===== -/

/-- Header length of a framed packet: a 4 byte big endian length prefix
    (packet structure comment at source lines 186 to 189). -/
def PACKET_HEADER_LEN : Nat := 4

/-- Modelled from the spec: PACKET_MAX_LEN is defined in chromecast.h, which is
    not among the given sources. The spec only requires a fixed maximum frame
    size (section 6); the value 10 * 1024 is the fixed receive buffer size the
    spec describes. No claim depends on the exact value. -/
def PACKET_MAX_LEN : Nat := 10 * 1024

/-- Local constant of recvPacket (source line 203). -/
def maxPayloadSize : Nat := PACKET_MAX_LEN - PACKET_HEADER_LEN

/-- Deadline regarding the pong we expect after pinging the receiver
    (source line 36). -/
def PONG_WAIT_TIME : Nat := 500

/-- Number of retries granted after sending a ping (source line 37). -/
def PONG_WAIT_RETRIES : Nat := 2

/-- Modelled from the spec: PING_WAIT_TIME lives in chromecast.h, not among the
    given sources; the spec (and the comment at source lines 145 to 148) says
    the client waits about 6 seconds of silence before pinging. -/
def PING_WAIT_TIME : Nat := 6000

/-- Modelled from the spec: PING_WAIT_RETRIES lives in chromecast.h, not among
    the given sources; only used as the restored default retry budget. -/
def PING_WAIT_RETRIES : Nat := 1

/-- Modelled from the spec: the well known default control port used when the
    caller passes port 0 (source lines 51 to 52). -/
def CHROMECAST_CONTROL_PORT : Nat := 8009

/- ===== Transport session: connect (source lines 49 to 83) ===== -/

/-- Outcome oracle for the external calls made by connect: net_ConnectTCP,
    net_GetSockAddress, vlc_tls_ClientCreate, vlc_tls_ClientSessionCreateFD. -/
structure ConnectEnv where
  tcpOk : Bool
  sockAddrOk : Bool
  credsOk : Bool
  tlsOk : Bool
  localIp : String
deriving DecidableEq

/-- Resources held by the communication object: the TCP socket, the TLS client
    credentials, the TLS session. -/
structure Resources where
  sockOpen : Bool
  credsAlloc : Bool
  tlsAlloc : Bool
deriving DecidableEq

/-- ChromecastCommunication.connect, source lines 49 to 83. Returns the boolean
    result together with the resources still held on exit. The branch structure
    mirrors the source: a TCP failure returns false with nothing held; a
    net_GetSockAddress failure returns false without touching the socket
    (source lines 58 to 62, where no net_Close occurs); a credentials failure
    closes the socket (line 69); a TLS session failure closes the socket and
    deletes the credentials (lines 78 to 79). -/
def connect (env : ConnectEnv) : Bool × Resources :=
  if !env.tcpOk then (false, ⟨false, false, false⟩)
  else if !env.sockAddrOk then (false, ⟨true, false, false⟩)
  else if !env.credsOk then (false, ⟨false, false, false⟩)
  else if !env.tlsOk then (false, ⟨false, false, false⟩)
  else (true, ⟨true, true, true⟩)

/- ===== Frame codec: byte level primitives ===== -/

/-- Write the list c into buf at offset off, overwriting in place; the list
    length only stays unchanged when off + c.length fits inside buf, so length
    preservation is exactly the in-bounds property of the write. -/
def writeAt (buf : List Nat) (off : Nat) (c : List Nat) : List Nat :=
  buf.take off ++ c ++ buf.drop (off + c.length)

/-- U32_AT: read a big endian 32 bit value from the first four bytes
    (used at source line 202). -/
def U32_AT (l : List Nat) : Nat :=
  l.getD 0 0 * 16777216 + l.getD 1 0 * 65536 + l.getD 2 0 * 256 + l.getD 3 0

/-- SetDWBE: the four big endian bytes of a 32 bit value
    (used at source line 446). -/
def SetDWBE (n : Nat) : List Nat :=
  [n / 16777216 % 256, n / 65536 % 256, n / 256 % 256, n % 256]

/-- Framing done by sendMessage (source lines 435 to 449): a 4 byte big endian
    length prefix followed by the serialized envelope bytes. The protobuf
    serialization itself is an external library; the payload is kept as the
    abstract byte sequence it produces. -/
def sendFrame (payload : List Nat) : List Nat :=
  SetDWBE payload.length ++ payload

/- ===== Frame codec: receive side (source lines 136 to 246) ===== -/

/-- Reassembly accumulator: pi_received and the caller buffer p_data
    (of capacity PACKET_MAX_LEN). -/
structure RecvState where
  received : Nat
  buf : List Nat
deriving DecidableEq

/-- Keepalive fields threaded through recvPacket: pb_pingTimeout,
    pi_wait_delay, pi_wait_retries. -/
structure KeepaliveState where
  pingTimeout : Bool
  waitDelay : Nat
  waitRetries : Nat
deriving DecidableEq

/-- Result of one poll (vlc_poll_i11e at source line 149): a timeout, readable
    data, an EINTR interruption, or another poll error. -/
inductive PollEvent
  | timeout
  | dataReady
  | errIntr
  | errOther
deriving DecidableEq

/-- Observable outcome of one recvPacket invocation: the returned int, the two
    out parameters b_msgReceived and i_payloadSize (none when the payload size
    was not written), the distinguished connection-died early return of source
    line 160 (which also logs an error), and whether the assertion at source
    line 236 held on the path taken. -/
structure RecvResult where
  ret : Int
  msgReceived : Bool
  payloadSize : Option Nat
  died : Bool
  assertOk : Bool
deriving DecidableEq

/-- One tls_Recv call. The oracle sched holds one entry per call: an entry
    r ≤ 0 is returned as the error or close result; a positive entry allows up
    to r bytes to arrive, and the call delivers min r (min req available) bytes
    from the pending stream, like a socket read which never returns more than
    requested nor more than is available. An exhausted oracle acts as a closed
    connection (returns 0). Returns the int result, the delivered bytes, and
    the remaining oracle and stream. -/
def tlsRecv (req : Nat) : List Int → List Nat → Int × List Nat × List Int × List Nat
  | [], stream => (0, [], [], stream)
  | r :: rest, stream =>
    if r ≤ 0 then (r, [], rest, stream)
    else
      let k := min (min r.toNat req) stream.length
      ((k : Int), stream.take k, rest, stream.drop k)

/-- The header while loop of recvPacket (source lines 190 to 197): while fewer
    than PACKET_HEADER_LEN bytes are accumulated, read the missing header bytes
    at offset received; a result ≤ 0 aborts the whole invocation with that
    result (returned as some r), preserving the accumulator. Recursion is on
    the read oracle, of which every iteration consumes one entry. -/
def headerLoop : List Int → RecvState → List Nat → Option Int × RecvState × List Int × List Nat
  | [], rs, stream =>
    if rs.received < PACKET_HEADER_LEN then (some 0, rs, [], stream)
    else (none, rs, [], stream)
  | r :: rest, rs, stream =>
    if rs.received < PACKET_HEADER_LEN then
      if r ≤ 0 then (some r, rs, rest, stream)
      else
        let k := min (min r.toNat (PACKET_HEADER_LEN - rs.received)) stream.length
        if k = 0 then (some 0, rs, rest, stream)
        else
          headerLoop rest ⟨rs.received + k, writeAt rs.buf rs.received (stream.take k)⟩
            (stream.drop k)
    else (none, rs, r :: rest, stream)

/-- The POLLIN branch of recvPacket (source lines 182 to 239): complete the
    header, read the payload size, then either drain an oversized frame
    (lines 205 to 224) or read the payload normally (lines 227 to 238). -/
def pollinBody (rs : RecvState) (sched : List Int) (stream : List Nat) :
    RecvResult × RecvState × List Int × List Nat :=
  match headerLoop sched rs stream with
  | (some e, rs1, sched1, stream1) => (⟨e, false, none, false, true⟩, rs1, sched1, stream1)
  | (none, rs1, sched1, stream1) =>
    let i_payloadSize := U32_AT rs1.buf
    if maxPayloadSize < i_payloadSize then
      let i_size0 := i_payloadSize - (rs1.received - PACKET_HEADER_LEN)
      let i_size := if maxPayloadSize < i_size0 then maxPayloadSize else i_size0
      match tlsRecv i_size sched1 stream1 with
      | (ret, chunk, sched2, stream2) =>
        if ret ≤ 0 then (⟨ret, false, some i_payloadSize, false, true⟩, rs1, sched2, stream2)
        else
          let rs2 : RecvState :=
            ⟨rs1.received + chunk.length, writeAt rs1.buf PACKET_HEADER_LEN chunk⟩
          if rs2.received < i_payloadSize + PACKET_HEADER_LEN then
            (⟨ret, false, some i_payloadSize, false, true⟩, rs2, sched2, stream2)
          else
            (⟨-1, false, some i_payloadSize, false, true⟩, ⟨0, rs2.buf⟩, sched2, stream2)
    else
      match tlsRecv (i_payloadSize - (rs1.received - PACKET_HEADER_LEN)) sched1 stream1 with
      | (ret, chunk, sched2, stream2) =>
        if ret ≤ 0 then (⟨ret, false, some i_payloadSize, false, true⟩, rs1, sched2, stream2)
        else
          let rs2 : RecvState :=
            ⟨rs1.received + chunk.length, writeAt rs1.buf rs1.received chunk⟩
          if rs2.received < i_payloadSize + PACKET_HEADER_LEN then
            (⟨ret, false, some i_payloadSize, false, true⟩, rs2, sched2, stream2)
          else
            (⟨ret, true, some i_payloadSize, false,
                rs2.received == i_payloadSize + PACKET_HEADER_LEN⟩,
              ⟨0, rs2.buf⟩, sched2, stream2)

/-- Default keepalive values restored on any successful arrival
    (source lines 175 to 178). -/
def defaultKeepalive : KeepaliveState := ⟨false, PING_WAIT_TIME, PING_WAIT_RETRIES⟩

/-- ChromecastCommunication.recvPacket (source lines 136 to 246). The poll
    outcome is given as an event: a timeout drives the keepalive machine
    (lines 153 to 172: first silent window sends a ping and arms the pong
    deadline, further silent windows consume the retry budget, an exhausted
    budget is the connection-died return of line 160); data arrival restores
    the defaults (lines 173 to 179) and runs the POLLIN body; an interrupted
    poll returns 1 (lines 241 to 243); another poll error returns -1
    (lines 150 to 151). -/
def recvPacket (ev : PollEvent) (ks : KeepaliveState) (rs : RecvState)
    (sched : List Int) (stream : List Nat) :
    RecvResult × KeepaliveState × RecvState × List Int × List Nat :=
  match ev with
  | .errOther => (⟨-1, false, none, false, true⟩, ks, rs, sched, stream)
  | .timeout =>
    if ks.pingTimeout then
      if ks.waitRetries = 0 then
        (⟨0, false, none, true, true⟩, ks, rs, sched, stream)
      else
        (⟨0, false, none, false, true⟩, ⟨true, ks.waitDelay, ks.waitRetries - 1⟩,
          rs, sched, stream)
    else
      (⟨0, false, none, false, true⟩, ⟨true, PONG_WAIT_TIME, PONG_WAIT_RETRIES⟩,
        rs, sched, stream)
  | .errIntr => (⟨1, false, none, false, true⟩, defaultKeepalive, rs, sched, stream)
  | .dataReady =>
    match pollinBody rs sched stream with
    | (res, rs2, sched2, stream2) => (res, defaultKeepalive, rs2, sched2, stream2)

/-- Drive recvPacket with data-ready events, as the event loop of the caller
    does, until a message completes or a result ≤ 0 is returned; fuel bounds
    the number of invocations. -/
def runRecv : Nat → KeepaliveState → RecvState → List Int → List Nat →
    RecvResult × KeepaliveState × RecvState × List Int × List Nat
  | 0, ks, rs, sched, stream => (⟨0, false, none, false, true⟩, ks, rs, sched, stream)
  | fuel + 1, ks, rs, sched, stream =>
    match recvPacket .dataReady ks rs sched stream with
    | (res, ks2, rs2, sched2, stream2) =>
      if res.msgReceived ∨ res.ret ≤ 0 then (res, ks2, rs2, sched2, stream2)
      else runRecv fuel ks2 rs2 sched2 stream2

/-- One recvPacket invocation whose poll timed out, projected onto the result
    and keepalive state (the accumulator and oracles are untouched on that
    path). -/
def recvTimeoutStep (ks : KeepaliveState) : RecvResult × KeepaliveState :=
  match recvPacket .timeout ks ⟨0, []⟩ [] [] with
  | (res, ks2, _, _, _) => (res, ks2)

/-- Keepalive state after n consecutive timed out invocations. -/
def ksIter : Nat → KeepaliveState → KeepaliveState
  | 0, ks => ks
  | n + 1, ks => (recvTimeoutStep (ksIter n ks)).2

/- ===== Message builder (source lines 100 to 128 and 249 to 463) ===== -/

/-- Modelled from the spec: the namespace strings live in chromecast.h, not
    among the given sources; spec section 6 fixes them as protocol constants.
    No claim depends on their exact spelling. -/
def NAMESPACE_DEVICEAUTH : String := "urn:x-cast:com.google.cast.tp.deviceauth"

/-- Modelled from the spec: heartbeat namespace constant. -/
def NAMESPACE_HEARTBEAT : String := "urn:x-cast:com.google.cast.tp.heartbeat"

/-- Modelled from the spec: connection namespace constant. -/
def NAMESPACE_CONNECTION : String := "urn:x-cast:com.google.cast.tp.connection"

/-- Modelled from the spec: receiver namespace constant. -/
def NAMESPACE_RECEIVER : String := "urn:x-cast:com.google.cast.receiver"

/-- Modelled from the spec: media player namespace constant. -/
def NAMESPACE_MEDIA : String := "urn:x-cast:com.google.cast.media"

/-- Modelled from the spec: the reserved destination id addressing the
    receiver itself. -/
def DEFAULT_CHOMECAST_RECEIVER : String := "receiver-0"

/-- Modelled from the spec: the fixed registered application identifier used
    by msgReceiverLaunchApp. -/
def APP_ID : String := "CC1AD845"

/-- Payload discriminator of a CastMessage (exactly one of the utf8 or binary
    payloads is set, selected by this kind). -/
inductive PayloadType
  | string
  | binary
deriving DecidableEq

/-- The envelope assembled by buildMessage (source lines 109 to 127): protocol
    version and source id are fixed, the rest comes from the arguments. -/
structure CastMsg where
  namespace_ : String
  payload : String
  destinationId : String
  payloadType : PayloadType
deriving DecidableEq

/-- buildMessage (source lines 109 to 127); the trailing sendMessage hand-off
    is the framing modelled by sendFrame. -/
def buildMessage (namespace_ : String) (payload : String) (destinationId : String)
    (payloadType : PayloadType := PayloadType.string) : CastMsg :=
  ⟨namespace_, payload, destinationId, payloadType⟩

/-- Mutable per-connection state of ChromecastCommunication: the local address
    string and the two request counters, both 0 after construction
    (source lines 39 to 47). -/
structure CCState where
  serverIp : String
  i_receiver_requestId : Nat
  i_requestId : Nat
deriving DecidableEq

/-- State right after the constructor ran (source lines 39 to 47): both
    counters are 0; serverIp is only assigned by connect (line 63). -/
def initialCCState : CCState := ⟨"", 0, 0⟩

/-- msgPing (source lines 262 to 266). -/
def msgPing : CastMsg :=
  buildMessage NAMESPACE_HEARTBEAT ("\x7b\"type\":\"PING\"\x7d") DEFAULT_CHOMECAST_RECEIVER

/-- msgPong (source lines 269 to 273). -/
def msgPong : CastMsg :=
  buildMessage NAMESPACE_HEARTBEAT ("\x7b\"type\":\"PONG\"\x7d") DEFAULT_CHOMECAST_RECEIVER

/-- msgConnect (source lines 275 to 279). -/
def msgConnect (destinationId : String) : CastMsg :=
  buildMessage NAMESPACE_CONNECTION ("\x7b\"type\":\"CONNECT\"\x7d") destinationId

/-- msgReceiverClose (source lines 281 to 285). -/
def msgReceiverClose (destinationId : String) : CastMsg :=
  buildMessage NAMESPACE_CONNECTION ("\x7b\"type\":\"CLOSE\"\x7d") destinationId

/-- msgReceiverGetStatus (source lines 287 to 294): the payload carries the
    receiver counter value and the call post-increments that counter. -/
def msgReceiverGetStatus (s : CCState) : CCState × CastMsg :=
  let payload :=
    "\x7b\"type\":\"GET_STATUS\"," ++ "\"requestId\":" ++ toString s.i_receiver_requestId ++ "\x7d"
  ({ s with i_receiver_requestId := s.i_receiver_requestId + 1 },
    buildMessage NAMESPACE_RECEIVER payload DEFAULT_CHOMECAST_RECEIVER)

/-- msgReceiverLaunchApp (source lines 296 to 304). -/
def msgReceiverLaunchApp (s : CCState) : CCState × CastMsg :=
  let payload :=
    "\x7b\"type\":\"LAUNCH\"," ++ "\"appId\":\"" ++ APP_ID ++ "\"," ++
      "\"requestId\":" ++ toString s.i_receiver_requestId ++ "\x7d"
  ({ s with i_receiver_requestId := s.i_receiver_requestId + 1 },
    buildMessage NAMESPACE_RECEIVER payload DEFAULT_CHOMECAST_RECEIVER)

/-- pushMediaPlayerMessage (source lines 459 to 463); the assertion that the
    destination id is nonempty is a caller precondition carried by the
    theorems. -/
def pushMediaPlayerMessage (destinationId : String) (payload : String) : CastMsg :=
  buildMessage NAMESPACE_MEDIA payload destinationId

/-- msgPlayerGetStatus (source lines 306 to 314). -/
def msgPlayerGetStatus (s : CCState) (destinationId : String) : CCState × CastMsg :=
  let payload :=
    "\x7b\"type\":\"GET_STATUS\"," ++ "\"requestId\":" ++ toString s.i_requestId ++ "\x7d"
  ({ s with i_requestId := s.i_requestId + 1 },
    pushMediaPlayerMessage destinationId payload)

/-- GetMedia (source lines 316 to 344), following the stringstream appends of
    the source: the optional metadata block (title nonempty), inside it the
    optional images entry (artwork nonempty and strncmp against http over four
    characters equal, which is exactly a prefix test), then the content id
    synthesized from serverIp and the port, the fixed LIVE stream type, and
    the mime type. -/
def GetMedia (s : CCState) (i_port : Nat) (title artwork mime : String) : String :=
  let ss := ""
  let ss :=
    if 0 < title.length then
      let ss := ss ++ "\"metadata\":\x7b" ++ " \"metadataType\":0" ++ ",\"title\":\"" ++ title ++ "\""
      let ss :=
        if 0 < artwork.length ∧ ("http").toList.isPrefixOf artwork.toList then
          ss ++ ",\"images\":[\"" ++ artwork ++ "\"]"
        else ss
      ss ++ "\x7d,"
    else ss
  let chromecast_url := "http://" ++ s.serverIp ++ ":" ++ toString i_port ++ "/stream"
  ss ++ "\"contentId\":\"" ++ chromecast_url ++ "\"" ++ ",\"streamType\":\"LIVE\"" ++
    ",\"contentType\":\"" ++ mime ++ "\""

/-- msgPlayerLoad (source lines 346 to 358). -/
def msgPlayerLoad (s : CCState) (destinationId : String) (i_port : Nat)
    (title artwork mime : String) : CCState × CastMsg :=
  let payload :=
    "\x7b\"type\":\"LOAD\"," ++ "\"media\":\x7b" ++ GetMedia s i_port title artwork mime ++
      "\x7d," ++ "\"autoplay\":\"false\"," ++ "\"requestId\":" ++ toString s.i_requestId ++ "\x7d"
  ({ s with i_requestId := s.i_requestId + 1 },
    pushMediaPlayerMessage destinationId payload)

/-- msgPlayerPlay (source lines 360 to 371). -/
def msgPlayerPlay (s : CCState) (destinationId mediaSessionId : String) : CCState × CastMsg :=
  let payload :=
    "\x7b\"type\":\"PLAY\"," ++ "\"mediaSessionId\":" ++ mediaSessionId ++ "," ++
      "\"requestId\":" ++ toString s.i_requestId ++ "\x7d"
  ({ s with i_requestId := s.i_requestId + 1 },
    pushMediaPlayerMessage destinationId payload)

/-- msgPlayerStop (source lines 373 to 384). -/
def msgPlayerStop (s : CCState) (destinationId mediaSessionId : String) : CCState × CastMsg :=
  let payload :=
    "\x7b\"type\":\"STOP\"," ++ "\"mediaSessionId\":" ++ mediaSessionId ++ "," ++
      "\"requestId\":" ++ toString s.i_requestId ++ "\x7d"
  ({ s with i_requestId := s.i_requestId + 1 },
    pushMediaPlayerMessage destinationId payload)

/-- msgPlayerPause (source lines 386 to 397). -/
def msgPlayerPause (s : CCState) (destinationId mediaSessionId : String) : CCState × CastMsg :=
  let payload :=
    "\x7b\"type\":\"PAUSE\"," ++ "\"mediaSessionId\":" ++ mediaSessionId ++ "," ++
      "\"requestId\":" ++ toString s.i_requestId ++ "\x7d"
  ({ s with i_requestId := s.i_requestId + 1 },
    pushMediaPlayerMessage destinationId payload)

/-- The semantic content of one SET_VOLUME message; the float rendering of the
    level by the C++ stream insertion is not byte-modelled, the carried level
    and mute flag are. -/
structure VolumeMsg where
  level : ℚ
  muted : Bool
  mediaSessionId : String
  requestId : Nat
  destinationId : String
deriving DecidableEq

/-- msgPlayerSetVolume (source lines 399 to 414): a level strictly below 0.0
    or strictly above 1.0 returns before building anything (silent drop, no
    counter touched); otherwise exactly one message is pushed and the media
    player counter is post-incremented. The C++ float level is modelled as a
    rational, which the two comparisons of line 403 respect. -/
def msgPlayerSetVolume (s : CCState) (destinationId mediaSessionId : String)
    (f_volume : ℚ) (b_mute : Bool) : CCState × Option VolumeMsg :=
  if f_volume < 0 ∨ 1 < f_volume then (s, none)
  else
    ({ s with i_requestId := s.i_requestId + 1 },
      some ⟨f_volume, b_mute, mediaSessionId, s.i_requestId, destinationId⟩)

/-- msgPlayerSeek (source lines 416 to 428). -/
def msgPlayerSeek (s : CCState) (destinationId mediaSessionId currentTime : String) :
    CCState × CastMsg :=
  let payload :=
    "\x7b\"type\":\"SEEK\"," ++ "\"currentTime\":" ++ currentTime ++ "," ++
      "\"mediaSessionId\":" ++ mediaSessionId ++ "," ++
      "\"requestId\":" ++ toString s.i_requestId ++ "\x7d"
  ({ s with i_requestId := s.i_requestId + 1 },
    pushMediaPlayerMessage destinationId payload)

/- ===== String containment helpers for the claims about GetMedia ===== -/

/-- Does the needle occur as a contiguous segment of the haystack. -/
def containsSeg (needle : List Char) : List Char → Bool
  | [] => needle.isEmpty
  | c :: t => needle.isPrefixOf (c :: t) || containsSeg needle t

/-- String containment via the underlying character lists. -/
def strContains (needle hay : String) : Bool :=
  containsSeg needle.toList hay.toList

/-- The claim side reading of an http(s) URL: a string that starts with the
    scheme of an http or https URL. -/
def isHttpUrl (s : String) : Bool :=
  ("http://").toList.isPrefixOf s.toList || ("https://").toList.isPrefixOf s.toList

/- ===== Lemmas: byte level primitives ===== -/

lemma SetDWBE_length (n : Nat) : (SetDWBE n).length = 4 := rfl

lemma U32_AT_SetDWBE_append (n : Nat) (t : List Nat) (h : n < 4294967296) :
    U32_AT (SetDWBE n ++ t) = n := by
  simp only [U32_AT, SetDWBE, List.cons_append, List.nil_append, List.getD_cons_zero,
    List.getD_cons_succ]
  omega

lemma U32_AT_of_take (l : List Nat) (n : Nat) (h : l.take 4 = SetDWBE n)
    (hn : n < 4294967296) : U32_AT l = n := by
  have h2 : l = SetDWBE n ++ l.drop 4 := by
    conv_lhs => rw [← List.take_append_drop 4 l]
    rw [h]
  rw [h2, U32_AT_SetDWBE_append _ _ hn]

lemma writeAt_length (buf : List Nat) (off : Nat) (c : List Nat)
    (h : off + c.length ≤ buf.length) : (writeAt buf off c).length = buf.length := by
  simp only [writeAt, List.length_append, List.length_take, List.length_drop]
  omega

lemma writeAt_take_left (buf : List Nat) (off m : Nat) (c : List Nat)
    (h1 : m ≤ off) (h2 : m ≤ buf.length) : (writeAt buf off c).take m = buf.take m := by
  have ha : (buf.take off).length = min off buf.length := List.length_take off buf
  rw [writeAt, List.append_assoc, List.take_append_eq_append_take]
  have h0 : m - (buf.take off).length = 0 := by rw [ha]; omega
  rw [h0, List.take_zero, List.append_nil, List.take_take]
  congr 1
  omega

lemma writeAt_take_full (buf : List Nat) (off : Nat) (c : List Nat)
    (h : off ≤ buf.length) :
    (writeAt buf off c).take (off + c.length) = buf.take off ++ c := by
  have ha : (buf.take off).length = off := by
    rw [List.length_take]; omega
  rw [writeAt, List.append_assoc, List.take_append_eq_append_take, ha, List.take_take]
  have h1 : min (off + c.length) off = off := by omega
  have h2 : off + c.length - off = c.length := by omega
  rw [h1, h2, List.take_left]

/- ===== Lemmas: small step unfoldings of the receive primitives ===== -/

lemma headerLoop_ge (sched : List Int) (rs : RecvState) (stream : List Nat)
    (h : PACKET_HEADER_LEN ≤ rs.received) :
    headerLoop sched rs stream = (none, rs, sched, stream) := by
  cases sched with
  | nil =>
    simp only [headerLoop]
    rw [if_neg (by omega)]
  | cons r rest =>
    simp only [headerLoop]
    rw [if_neg (by omega)]

lemma headerLoop_cons_err (r : Int) (rest : List Int) (rs : RecvState) (stream : List Nat)
    (h4 : rs.received < PACKET_HEADER_LEN) (hr : r ≤ 0) :
    headerLoop (r :: rest) rs stream = (some r, rs, rest, stream) := by
  simp only [headerLoop]
  rw [if_pos h4, if_pos hr]

lemma headerLoop_cons_pos (r : Int) (rest : List Int) (rs : RecvState) (stream : List Nat)
    (k : Nat) (h4 : rs.received < PACKET_HEADER_LEN) (hr : ¬ r ≤ 0)
    (hk : k = min (min r.toNat (PACKET_HEADER_LEN - rs.received)) stream.length)
    (hk0 : k ≠ 0) :
    headerLoop (r :: rest) rs stream =
      headerLoop rest ⟨rs.received + k, writeAt rs.buf rs.received (stream.take k)⟩
        (stream.drop k) := by
  simp only [headerLoop]
  rw [if_pos h4, if_neg hr]
  rw [← hk]
  rw [if_neg hk0]

lemma tlsRecv_cons_err (req : Nat) (r : Int) (rest : List Int) (stream : List Nat)
    (hr : r ≤ 0) : tlsRecv req (r :: rest) stream = (r, [], rest, stream) := by
  simp only [tlsRecv]
  rw [if_pos hr]

lemma tlsRecv_cons_pos (req : Nat) (r : Int) (rest : List Int) (stream : List Nat) (k : Nat)
    (hr : ¬ r ≤ 0) (hk : k = min (min r.toNat req) stream.length) :
    tlsRecv req (r :: rest) stream = ((k : Int), stream.take k, rest, stream.drop k) := by
  simp only [tlsRecv]
  rw [if_neg hr]
  rw [← hk]

/- ===== Numeric values of the constants ===== -/

lemma PACKET_HEADER_LEN_val : PACKET_HEADER_LEN = 4 := rfl

lemma PACKET_MAX_LEN_val : PACKET_MAX_LEN = 10240 := rfl

lemma maxPayloadSize_val : maxPayloadSize = 10236 := rfl

/- ===== Reassembly invariant for a well sized frame ===== -/

/-- Invariant tying the accumulator to the frame being delivered: the buffer
    has full capacity, the accumulated prefix of the buffer equals the frame
    prefix already consumed, and the pending stream is the rest of the frame. -/
structure FrameInv (frame : List Nat) (rs : RecvState) (stream : List Nat) : Prop where
  blen : rs.buf.length = PACKET_MAX_LEN
  recLe : rs.received ≤ frame.length
  prefEq : rs.buf.take rs.received = frame.take rs.received
  streamEq : stream = frame.drop rs.received

lemma headerLoop_run (frame : List Nat) (hfl : PACKET_HEADER_LEN ≤ frame.length) :
    ∀ (sched : List Int) (rs : RecvState) (stream : List Nat),
    FrameInv frame rs stream → rs.received ≤ PACKET_HEADER_LEN →
    (∀ r ∈ sched, 1 ≤ r) →
    PACKET_HEADER_LEN - rs.received ≤ sched.length →
    ∃ rs1 sched1,
      headerLoop sched rs stream = (none, rs1, sched1, frame.drop PACKET_HEADER_LEN) ∧
      rs1.received = PACKET_HEADER_LEN ∧
      FrameInv frame rs1 (frame.drop PACKET_HEADER_LEN) ∧
      (∀ r ∈ sched1, 1 ≤ r) ∧
      sched.length - sched1.length ≤ PACKET_HEADER_LEN - rs.received ∧
      sched1.length ≤ sched.length := by
  intro sched
  induction sched with
  | nil =>
    intro rs stream hinv hrec hpos hcnt
    have h4 : rs.received = PACKET_HEADER_LEN := by
      simp only [List.length_nil] at hcnt
      omega
    refine ⟨rs, [], ?_, h4, ?_, ?_, by omega, by omega⟩
    · rw [headerLoop_ge _ _ _ (by omega), hinv.streamEq, h4]
    · exact ⟨hinv.blen, hinv.recLe, hinv.prefEq, by rw [h4]⟩
    · intro x hx
      simp at hx
  | cons r rest ih =>
    intro rs stream hinv hrec hpos hcnt
    simp only [List.length_cons] at hcnt
    by_cases h4 : rs.received < PACKET_HEADER_LEN
    · have hr : 1 ≤ r := hpos r (List.mem_cons_self r rest)
      have hrn : ¬ r ≤ 0 := by omega
      have htn : 1 ≤ r.toNat := by omega
      have hstream_len : stream.length = frame.length - rs.received := by
        rw [hinv.streamEq, List.length_drop]
      set k := min (min r.toNat (PACKET_HEADER_LEN - rs.received)) stream.length with hk
      have hk1 : 1 ≤ k := by
        rw [hk]
        omega
      have hkle : k ≤ PACKET_HEADER_LEN - rs.received := by
        rw [hk]
        omega
      have hkstream : k ≤ stream.length := by
        rw [hk]
        omega
      have hcl : (stream.take k).length = k := by
        rw [List.length_take]
        omega
      have hhm : PACKET_HEADER_LEN ≤ PACKET_MAX_LEN := by decide
      have hoffbuf : rs.received + k ≤ rs.buf.length := by
        rw [hinv.blen]
        omega
      rw [headerLoop_cons_pos r rest rs stream k h4 hrn hk (by omega)]
      have hblen' : (writeAt rs.buf rs.received (stream.take k)).length = PACKET_MAX_LEN := by
        rw [writeAt_length rs.buf rs.received (stream.take k) (by rw [hcl]; exact hoffbuf),
          hinv.blen]
      have hpref' : (writeAt rs.buf rs.received (stream.take k)).take (rs.received + k) =
          frame.take (rs.received + k) := by
        have hoff : rs.received ≤ rs.buf.length := by omega
        have hwf := writeAt_take_full rs.buf rs.received (stream.take k) hoff
        rw [hcl] at hwf
        rw [hwf, hinv.prefEq, List.take_add]
        congr 1
        rw [hinv.streamEq]
      have hinv' : FrameInv frame
          ⟨rs.received + k, writeAt rs.buf rs.received (stream.take k)⟩ (stream.drop k) :=
        ⟨hblen', by
            show rs.received + k ≤ frame.length
            omega, hpref', by
          show stream.drop k = frame.drop (rs.received + k)
          rw [hinv.streamEq, List.drop_drop]⟩
      obtain ⟨rs1, sched1, heq, h41, hinv1, hpos1, hcnt1, hlen1⟩ :=
        ih ⟨rs.received + k, writeAt rs.buf rs.received (stream.take k)⟩ (stream.drop k) hinv'
          (by
            show rs.received + k ≤ PACKET_HEADER_LEN
            omega)
          (fun x hx => hpos x (List.mem_cons_of_mem r hx))
          (by
            show PACKET_HEADER_LEN - (rs.received + k) ≤ rest.length
            omega)
      have hcnt1' : rest.length - sched1.length ≤ PACKET_HEADER_LEN - (rs.received + k) := hcnt1
      have hlen1' : sched1.length ≤ rest.length := hlen1
      refine ⟨rs1, sched1, heq, h41, hinv1, hpos1, ?_, ?_⟩
      · simp only [List.length_cons]
        omega
      · simp only [List.length_cons]
        omega
    · have h4e : rs.received = PACKET_HEADER_LEN := by omega
      refine ⟨rs, r :: rest, ?_, h4e, ?_, hpos, by omega, by omega⟩
      · rw [headerLoop_ge _ _ _ (by omega), hinv.streamEq, h4e]
      · exact ⟨hinv.blen, hinv.recLe, hinv.prefEq, by rw [h4e]⟩

lemma take_four_from_take (bufl framel : List Nat) (n : Nat)
    (h : bufl.take n = framel.take n) (h4 : 4 ≤ n) : bufl.take 4 = framel.take 4 := by
  have h2 : (bufl.take n).take 4 = (framel.take n).take 4 := by rw [h]
  rw [List.take_take, List.take_take, Nat.min_eq_left h4] at h2
  exact h2

lemma pollinBody_step_normal (len : Nat) (p frame : List Nat)
    (hframe : frame = SetDWBE len ++ p) (hp : p.length = len)
    (hlen1 : 1 ≤ len) (hlen : len ≤ maxPayloadSize) :
    ∀ (rs : RecvState) (sched : List Int) (stream : List Nat),
    FrameInv frame rs stream → rs.received < PACKET_HEADER_LEN + len →
    (∀ r ∈ sched, 1 ≤ r) →
    PACKET_HEADER_LEN + len - rs.received ≤ sched.length →
    ∃ res rs2 sched2 stream2,
      pollinBody rs sched stream = (res, rs2, sched2, stream2) ∧
      res.payloadSize = some len ∧ res.died = false ∧ res.assertOk = true ∧
      0 < res.ret ∧
      ((res.msgReceived = true ∧ rs2.received = 0 ∧
          (rs2.buf.drop PACKET_HEADER_LEN).take len = p ∧ stream2 = []) ∨
        (res.msgReceived = false ∧ FrameInv frame rs2 stream2 ∧
          rs.received < rs2.received ∧ rs2.received < PACKET_HEADER_LEN + len ∧
          (∀ r ∈ sched2, 1 ≤ r) ∧
          PACKET_HEADER_LEN + len - rs2.received ≤ sched2.length)) := by
  intro rs sched stream hinv hrec hpos hcnt
  have hP : PACKET_HEADER_LEN = 4 := rfl
  have hM : PACKET_MAX_LEN = 10240 := rfl
  have hX : maxPayloadSize = 10236 := rfl
  have hfl : frame.length = PACKET_HEADER_LEN + len := by
    rw [hframe, List.length_append, SetDWBE_length, hp, hP]
  have hhdr : frame.take PACKET_HEADER_LEN = SetDWBE len := by
    have h0 := List.take_left (SetDWBE len) p
    rw [SetDWBE_length] at h0
    rw [hframe, hP, h0]
  obtain ⟨rs1, sched1, heq, hrec1, hinv1, hpos1, hcnt1⟩ :
      ∃ rs1 sched1,
        headerLoop sched rs stream = (none, rs1, sched1, frame.drop rs1.received) ∧
        (PACKET_HEADER_LEN ≤ rs1.received ∧ rs1.received < PACKET_HEADER_LEN + len ∧
          rs.received ≤ rs1.received) ∧
        FrameInv frame rs1 (frame.drop rs1.received) ∧
        (∀ r ∈ sched1, 1 ≤ r) ∧
        PACKET_HEADER_LEN + len - rs1.received ≤ sched1.length := by
    by_cases hA : rs.received ≤ PACKET_HEADER_LEN
    · obtain ⟨rs1, sched1, heq, h41, hinv1, hpos1, hc1, hl1⟩ :=
        headerLoop_run frame (by omega) sched rs stream hinv hA hpos (by omega)
      refine ⟨rs1, sched1, ?_, ⟨by omega, by omega, by omega⟩, ?_, hpos1, by omega⟩
      · rw [heq, h41]
      · rw [h41]
        exact hinv1
    · refine ⟨rs, sched, ?_, ⟨by omega, by omega, by omega⟩, ?_, hpos, by omega⟩
      · rw [headerLoop_ge _ _ _ (by omega), hinv.streamEq]
      · rw [← hinv.streamEq]
        exact hinv
  obtain ⟨hrec1a, hrec1b, hrec1c⟩ := hrec1
  have hu32 : U32_AT rs1.buf = len := by
    apply U32_AT_of_take rs1.buf len
    · have := take_four_from_take rs1.buf frame rs1.received hinv1.prefEq (by omega)
      rw [this, ← hP, hhdr]
    · omega
  rcases sched1 with _ | ⟨rn, rest2⟩
  · simp only [List.length_nil] at hcnt1
    omega
  have hrn : 1 ≤ rn := hpos1 rn (List.mem_cons_self rn rest2)
  have hrnn : ¬ rn ≤ 0 := by omega
  have hsl1 : (frame.drop rs1.received).length = PACKET_HEADER_LEN + len - rs1.received := by
    rw [List.length_drop, hfl]
  have hreq : len - (rs1.received - PACKET_HEADER_LEN) = PACKET_HEADER_LEN + len - rs1.received := by
    omega
  set k := min (min rn.toNat (len - (rs1.received - PACKET_HEADER_LEN)))
      (frame.drop rs1.received).length with hkdef
  have htn : 1 ≤ rn.toNat := by omega
  have hk1 : 1 ≤ k := by
    rw [hkdef]
    omega
  have hkreq : k ≤ len - (rs1.received - PACKET_HEADER_LEN) := by
    rw [hkdef]
    omega
  have hkstream : k ≤ (frame.drop rs1.received).length := by
    rw [hkdef]
    omega
  have hcl1 : ((frame.drop rs1.received).take k).length = k := by
    rw [List.length_take]
    omega
  have hgneg : ¬ maxPayloadSize < len := by omega
  have hknot : ¬ ((k : Int) ≤ 0) := by omega
  have htls := tlsRecv_cons_pos (len - (rs1.received - PACKET_HEADER_LEN)) rn rest2
    (frame.drop rs1.received) k hrnn hkdef
  simp only [List.length_cons] at hcnt1
  have hblen2 : (writeAt rs1.buf rs1.received ((frame.drop rs1.received).take k)).length =
      PACKET_MAX_LEN := by
    rw [writeAt_length, hinv1.blen]
    rw [hcl1, hinv1.blen]
    omega
  have hpref2 : (writeAt rs1.buf rs1.received ((frame.drop rs1.received).take k)).take
      (rs1.received + k) = frame.take (rs1.received + k) := by
    have hoff : rs1.received ≤ rs1.buf.length := by
      rw [hinv1.blen]
      omega
    have hwf := writeAt_take_full rs1.buf rs1.received ((frame.drop rs1.received).take k) hoff
    rw [hcl1] at hwf
    rw [hwf, hinv1.prefEq, List.take_add]
  by_cases hcc : rs1.received + k < len + PACKET_HEADER_LEN
  · have hpb : pollinBody rs sched stream =
        (⟨(k : Int), false, some len, false, true⟩,
          ⟨rs1.received + k, writeAt rs1.buf rs1.received ((frame.drop rs1.received).take k)⟩,
          rest2, (frame.drop rs1.received).drop k) := by
      simp only [pollinBody, heq, hu32, if_neg hgneg, htls, if_neg hknot, hcl1, if_pos hcc]
    refine ⟨_, _, _, _, hpb, rfl, rfl, rfl, by
      show (0 : Int) < (k : Int)
      omega, Or.inr ⟨rfl, ?_, by
        show rs.received < rs1.received + k
        omega, by
        show rs1.received + k < PACKET_HEADER_LEN + len
        omega, fun x hx => hpos1 x (List.mem_cons_of_mem rn hx), by
        show PACKET_HEADER_LEN + len - (rs1.received + k) ≤ rest2.length
        omega⟩⟩
    exact ⟨hblen2, by
        show rs1.received + k ≤ frame.length
        omega, hpref2, by
      show (frame.drop rs1.received).drop k = frame.drop (rs1.received + k)
      rw [List.drop_drop]⟩
  · have hceq : rs1.received + k = len + PACKET_HEADER_LEN := by omega
    have hpb : pollinBody rs sched stream =
        (⟨(k : Int), true, some len, false, (rs1.received + k == len + PACKET_HEADER_LEN)⟩,
          ⟨0, writeAt rs1.buf rs1.received ((frame.drop rs1.received).take k)⟩,
          rest2, (frame.drop rs1.received).drop k) := by
      simp only [pollinBody, heq, hu32, if_neg hgneg, htls, if_neg hknot, hcl1, if_neg hcc]
    have hbt : (writeAt rs1.buf rs1.received ((frame.drop rs1.received).take k)).take
        (rs1.received + k) = frame := by
      rw [hpref2, hceq]
      apply List.take_of_length_le
      omega
    refine ⟨_, _, _, _, hpb, rfl, rfl, ?_, by
      show (0 : Int) < (k : Int)
      omega, Or.inl ⟨rfl, rfl, ?_, ?_⟩⟩
    · show (rs1.received + k == len + PACKET_HEADER_LEN) = true
      rw [hceq]
      simp
    · show ((writeAt rs1.buf rs1.received
          ((frame.drop rs1.received).take k)).drop PACKET_HEADER_LEN).take len = p
      have h1 : ((writeAt rs1.buf rs1.received
          ((frame.drop rs1.received).take k)).take (rs1.received + k)).drop PACKET_HEADER_LEN =
          ((writeAt rs1.buf rs1.received
            ((frame.drop rs1.received).take k)).drop PACKET_HEADER_LEN).take len := by
        rw [List.drop_take]
        congr 1
        omega
      rw [← h1, hbt, hframe]
      have h0 := List.drop_left (SetDWBE len) p
      rw [SetDWBE_length] at h0
      rw [hP, h0]
    · show (frame.drop rs1.received).drop k = []
      rw [List.drop_drop]
      apply List.drop_eq_nil_of_le
      omega

lemma recvPacket_dataReady_eq (ks : KeepaliveState) (rs : RecvState) (sched : List Int)
    (stream : List Nat) (res : RecvResult) (rs2 : RecvState) (sched2 : List Int)
    (stream2 : List Nat) (h : pollinBody rs sched stream = (res, rs2, sched2, stream2)) :
    recvPacket .dataReady ks rs sched stream = (res, defaultKeepalive, rs2, sched2, stream2) := by
  simp only [recvPacket, h]

lemma runRecv_normal (len : Nat) (p frame : List Nat)
    (hframe : frame = SetDWBE len ++ p) (hp : p.length = len)
    (hlen1 : 1 ≤ len) (hlen : len ≤ maxPayloadSize) :
    ∀ (fuel : Nat) (ks : KeepaliveState) (rs : RecvState) (sched : List Int)
      (stream : List Nat),
    FrameInv frame rs stream → rs.received < PACKET_HEADER_LEN + len →
    (∀ r ∈ sched, 1 ≤ r) →
    PACKET_HEADER_LEN + len - rs.received ≤ sched.length →
    PACKET_HEADER_LEN + len - rs.received ≤ fuel →
    ∃ res rs2 sched2 stream2,
      runRecv fuel ks rs sched stream = (res, defaultKeepalive, rs2, sched2, stream2) ∧
      res.msgReceived = true ∧ res.payloadSize = some len ∧ 0 < res.ret ∧
      rs2.received = 0 ∧ (rs2.buf.drop PACKET_HEADER_LEN).take len = p ∧ stream2 = [] := by
  intro fuel
  induction fuel with
  | zero =>
    intro ks rs sched stream hinv hrec hpos hcnt hfuel
    omega
  | succ fuel ih =>
    intro ks rs sched stream hinv hrec hpos hcnt hfuel
    obtain ⟨res, rs2, sched2, stream2, hpb, hps, hdied, hass, hret, hcase⟩ :=
      pollinBody_step_normal len p frame hframe hp hlen1 hlen rs sched stream hinv hrec hpos hcnt
    have hrp := recvPacket_dataReady_eq ks rs sched stream res rs2 sched2 stream2 hpb
    rcases hcase with ⟨hmt, hr0, hpay, hst⟩ | ⟨hmf, hinv2, hlt, hlt2, hpos2, hcnt2⟩
    · refine ⟨res, rs2, sched2, stream2, ?_, hmt, hps, hret, hr0, hpay, hst⟩
      simp only [runRecv, hrp]
      rw [if_pos (Or.inl hmt)]
    · obtain ⟨res3, rs3, sched3, stream3, hrun, h1, h2, h3, h4, h5, h6⟩ :=
        ih defaultKeepalive rs2 sched2 stream2 hinv2 hlt2 hpos2 hcnt2 (by omega)
      refine ⟨res3, rs3, sched3, stream3, ?_, h1, h2, h3, h4, h5, h6⟩
      simp only [runRecv, hrp]
      rw [if_neg ?_]
      · exact hrun
      · rintro (h | h)
        · rw [hmf] at h
          exact Bool.false_ne_true h
        · omega

lemma pollinBody_err_entry (rs : RecvState) (stream : List Nat) (e : Int) (rest : List Int)
    (he : e ≤ 0) :
    ∃ res, pollinBody rs (e :: rest) stream = (res, rs, rest, stream) ∧
      res.ret = e ∧ res.msgReceived = false ∧ res.died = false ∧ res.assertOk = true := by
  by_cases h4 : rs.received < PACKET_HEADER_LEN
  · refine ⟨⟨e, false, none, false, true⟩, ?_, rfl, rfl, rfl, rfl⟩
    simp only [pollinBody, headerLoop_cons_err e rest rs stream h4 he]
  · have hge := headerLoop_ge (e :: rest) rs stream (by omega)
    by_cases hbig : maxPayloadSize < U32_AT rs.buf
    · refine ⟨⟨e, false, some (U32_AT rs.buf), false, true⟩, ?_, rfl, rfl, rfl, rfl⟩
      have htls := tlsRecv_cons_err
        (if maxPayloadSize < U32_AT rs.buf - (rs.received - PACKET_HEADER_LEN) then
            maxPayloadSize
          else U32_AT rs.buf - (rs.received - PACKET_HEADER_LEN)) e rest stream he
      simp only [pollinBody, hge, if_pos hbig, htls, if_pos he]
    · refine ⟨⟨e, false, some (U32_AT rs.buf), false, true⟩, ?_, rfl, rfl, rfl, rfl⟩
      have htls := tlsRecv_cons_err (U32_AT rs.buf - (rs.received - PACKET_HEADER_LEN))
        e rest stream he
      simp only [pollinBody, hge, if_neg hbig, htls, if_pos he]

lemma recvPacket_err_entry (ks : KeepaliveState) (rs : RecvState) (stream : List Nat)
    (e : Int) (rest : List Int) (he : e ≤ 0) :
    ∃ res, recvPacket .dataReady ks rs (e :: rest) stream =
        (res, defaultKeepalive, rs, rest, stream) ∧
      res.ret = e ∧ res.msgReceived = false := by
  obtain ⟨res, hpb, h1, h2, h3, h4⟩ := pollinBody_err_entry rs stream e rest he
  exact ⟨res, recvPacket_dataReady_eq ks rs (e :: rest) stream res rs rest stream hpb, h1, h2⟩

lemma initial_FrameInv (frame : List Nat) :
    FrameInv frame ⟨0, List.replicate PACKET_MAX_LEN 0⟩ frame := by
  refine ⟨?_, ?_, ?_, ?_⟩
  · simp
  · simp
  · simp
  · simp

/-- Claim C3: a frame whose declared payload length is within bounds can be
    delivered across arbitrarily many positive partial reads (including byte
    sized ones): driving recvPacket until completion yields b_msgReceived set,
    the same payload bytes and size as delivering the frame whole, with
    pi_received reset to 0; and any read returning a value ≤ 0 mid frame makes
    that invocation return exactly that value while preserving the partial
    accumulated count for the next invocation. -/
theorem recvPacket_chunked_reassembly :
    (∀ (p : List Nat) (sched : List Int) (ks : KeepaliveState),
      0 < p.length → p.length ≤ maxPayloadSize →
      (∀ r ∈ sched, 1 ≤ r) → PACKET_HEADER_LEN + p.length ≤ sched.length →
      ∃ res rs2 sched2 stream2,
        runRecv (PACKET_HEADER_LEN + p.length) ks ⟨0, List.replicate PACKET_MAX_LEN 0⟩
            sched (sendFrame p) = (res, defaultKeepalive, rs2, sched2, stream2) ∧
        res.msgReceived = true ∧ res.payloadSize = some p.length ∧ 0 < res.ret ∧
        rs2.received = 0 ∧ (rs2.buf.drop PACKET_HEADER_LEN).take p.length = p) ∧
    (∀ (ks : KeepaliveState) (rs : RecvState) (stream : List Nat) (e : Int)
      (rest : List Int), e ≤ 0 →
      ∃ res, recvPacket .dataReady ks rs (e :: rest) stream =
          (res, defaultKeepalive, rs, rest, stream) ∧
        res.ret = e ∧ res.msgReceived = false) := by
  constructor
  · intro p sched ks hp0 hpmax hpos hcnt
    obtain ⟨res, rs2, sched2, stream2, hrun, h1, h2, h3, h4, h5, h6⟩ :=
      runRecv_normal p.length p (sendFrame p) rfl rfl hp0 hpmax
        (PACKET_HEADER_LEN + p.length) ks ⟨0, List.replicate PACKET_MAX_LEN 0⟩ sched
        (sendFrame p) (initial_FrameInv (sendFrame p))
        (by
          show 0 < PACKET_HEADER_LEN + p.length
          omega)
        hpos
        (by
          show PACKET_HEADER_LEN + p.length - 0 ≤ sched.length
          omega)
        (by
          show PACKET_HEADER_LEN + p.length - 0 ≤ PACKET_HEADER_LEN + p.length
          omega)
    exact ⟨res, rs2, sched2, stream2, hrun, h1, h2, h3, h4, h5⟩
  · intro ks rs stream e rest he
    exact recvPacket_err_entry ks rs stream e rest he

theorem recvPacket_chunked_reassembly_witness :
    (0 < ([65] : List Nat).length ∧ ([65] : List Nat).length ≤ maxPayloadSize ∧
      (∀ r ∈ List.replicate 5 (1 : Int), 1 ≤ r) ∧
      PACKET_HEADER_LEN + ([65] : List Nat).length ≤ (List.replicate 5 (1 : Int)).length) ∧
    ∃ res rs2 sched2 stream2,
      runRecv (PACKET_HEADER_LEN + ([65] : List Nat).length) defaultKeepalive
          ⟨0, List.replicate PACKET_MAX_LEN 0⟩ (List.replicate 5 (1 : Int))
          (sendFrame [65]) = (res, defaultKeepalive, rs2, sched2, stream2) ∧
      res.msgReceived = true ∧ res.payloadSize = some ([65] : List Nat).length ∧
      0 < res.ret ∧ rs2.received = 0 ∧
      (rs2.buf.drop PACKET_HEADER_LEN).take ([65] : List Nat).length = [65] :=
  ⟨⟨by decide, by decide, by decide, by decide⟩,
    recvPacket_chunked_reassembly.1 [65] (List.replicate 5 (1 : Int)) defaultKeepalive
      (by decide) (by decide) (by decide) (by decide)⟩

/-- Claim C2: serializing an envelope whose payload fits the maximum payload
    size with the framing of sendMessage (4 byte big endian length prefix plus
    the envelope bytes) and feeding exactly those bytes to recvPacket
    reconstructs a complete message with identical payload bytes and identical
    payload size. A serialized envelope is never empty, hence the positivity
    hypothesis on the payload length. -/
theorem sendFrame_recvPacket_roundtrip (p : List Nat) (ks : KeepaliveState)
    (hp0 : 0 < p.length) (hpmax : p.length ≤ maxPayloadSize) :
    ∃ res rs2 sched2 stream2,
      runRecv (PACKET_HEADER_LEN + p.length) ks ⟨0, List.replicate PACKET_MAX_LEN 0⟩
          (List.replicate (PACKET_HEADER_LEN + p.length)
            ((PACKET_HEADER_LEN + p.length : Nat) : Int))
          (sendFrame p) = (res, defaultKeepalive, rs2, sched2, stream2) ∧
      res.msgReceived = true ∧ res.payloadSize = some p.length ∧ 0 < res.ret ∧
      rs2.received = 0 ∧ (rs2.buf.drop PACKET_HEADER_LEN).take p.length = p ∧
      stream2 = [] := by
  apply runRecv_normal p.length p (sendFrame p) rfl rfl hp0 hpmax
    (PACKET_HEADER_LEN + p.length) ks ⟨0, List.replicate PACKET_MAX_LEN 0⟩ _ (sendFrame p)
    (initial_FrameInv (sendFrame p))
    (by
      show 0 < PACKET_HEADER_LEN + p.length
      omega)
  · intro r hr
    rw [List.eq_of_mem_replicate hr]
    omega
  · simp
  · show PACKET_HEADER_LEN + p.length - 0 ≤ PACKET_HEADER_LEN + p.length
    omega

theorem sendFrame_recvPacket_roundtrip_witness :
    0 < ([7, 8] : List Nat).length ∧
    ∃ res rs2 sched2 stream2,
      runRecv (PACKET_HEADER_LEN + ([7, 8] : List Nat).length) defaultKeepalive
          ⟨0, List.replicate PACKET_MAX_LEN 0⟩
          (List.replicate (PACKET_HEADER_LEN + ([7, 8] : List Nat).length)
            ((PACKET_HEADER_LEN + ([7, 8] : List Nat).length : Nat) : Int))
          (sendFrame [7, 8]) = (res, defaultKeepalive, rs2, sched2, stream2) ∧
      res.msgReceived = true ∧ res.payloadSize = some ([7, 8] : List Nat).length ∧
      0 < res.ret ∧ rs2.received = 0 ∧
      (rs2.buf.drop PACKET_HEADER_LEN).take ([7, 8] : List Nat).length = [7, 8] ∧
      stream2 = [] :=
  ⟨by decide, sendFrame_recvPacket_roundtrip [7, 8] defaultKeepalive (by decide) (by decide)⟩

/- ===== Oversized frame draining (source lines 205 to 224) ===== -/

/-- Invariant of the draining sub-state: the header (still holding the
    oversized declared length) is intact at the front of the buffer, the
    accumulated count tracks how much of the declared length has been
    consumed, and the pending stream is the remainder of the frame. -/
structure DrainInv (len : Nat) (frame : List Nat) (rs : RecvState)
    (stream : List Nat) : Prop where
  blen : rs.buf.length = PACKET_MAX_LEN
  hdr : rs.buf.take PACKET_HEADER_LEN = SetDWBE len
  rec4 : PACKET_HEADER_LEN ≤ rs.received
  recLe : rs.received ≤ PACKET_HEADER_LEN + len
  streamEq : stream = frame.drop rs.received

lemma pollinBody_step_drain (len : Nat) (junk frame : List Nat)
    (hframe : frame = SetDWBE len ++ junk) (hj : junk.length = len)
    (hbig : maxPayloadSize < len) (hlt : len < 4294967296) :
    ∀ (rs : RecvState) (sched : List Int) (stream : List Nat),
    ((FrameInv frame rs stream ∧ rs.received ≤ PACKET_HEADER_LEN) ∨
      DrainInv len frame rs stream) →
    rs.received < PACKET_HEADER_LEN + len →
    (∀ r ∈ sched, 1 ≤ r) →
    PACKET_HEADER_LEN + len - rs.received ≤ sched.length →
    ∃ res rs2 sched2 stream2,
      pollinBody rs sched stream = (res, rs2, sched2, stream2) ∧
      res.payloadSize = some len ∧ res.died = false ∧ res.assertOk = true ∧
      res.msgReceived = false ∧
      ((res.ret = -1 ∧ rs2.received = 0 ∧ stream2 = []) ∨
        (0 < res.ret ∧ DrainInv len frame rs2 stream2 ∧
          rs.received < rs2.received ∧ rs2.received < PACKET_HEADER_LEN + len ∧
          (∀ r ∈ sched2, 1 ≤ r) ∧
          PACKET_HEADER_LEN + len - rs2.received ≤ sched2.length)) := by
  intro rs sched stream hentry hrec hpos hcnt
  have hP : PACKET_HEADER_LEN = 4 := rfl
  have hM : PACKET_MAX_LEN = 10240 := rfl
  have hX : maxPayloadSize = 10236 := rfl
  have hfl : frame.length = PACKET_HEADER_LEN + len := by
    rw [hframe, List.length_append, SetDWBE_length, hj, hP]
  have hhdr : frame.take PACKET_HEADER_LEN = SetDWBE len := by
    have h0 := List.take_left (SetDWBE len) junk
    rw [SetDWBE_length] at h0
    rw [hframe, hP, h0]
  obtain ⟨rs1, sched1, heq, hdi1, hrecs1, hrecs2, hpos1, hcnt1⟩ :
      ∃ rs1 sched1,
        headerLoop sched rs stream = (none, rs1, sched1, frame.drop rs1.received) ∧
        DrainInv len frame rs1 (frame.drop rs1.received) ∧
        rs.received ≤ rs1.received ∧ rs1.received < PACKET_HEADER_LEN + len ∧
        (∀ r ∈ sched1, 1 ≤ r) ∧
        PACKET_HEADER_LEN + len - rs1.received ≤ sched1.length := by
    rcases hentry with ⟨hinv, hle⟩ | hdi
    · obtain ⟨rs1, sched1, heq1, h41, hinv1, hpos1, hc1, hl1⟩ :=
        headerLoop_run frame (by omega) sched rs stream hinv hle hpos (by omega)
      refine ⟨rs1, sched1, by rw [heq1, h41], ?_, by omega, by omega, hpos1, by omega⟩
      refine ⟨hinv1.blen, ?_, by omega, by omega, by rw [h41]⟩
      have h4t := take_four_from_take rs1.buf frame rs1.received hinv1.prefEq (by omega)
      rw [hP]
      rw [hP] at hhdr
      rw [h4t, hhdr]
    · refine ⟨rs, sched, by rw [headerLoop_ge _ _ _ hdi.rec4, hdi.streamEq], ?_,
        le_refl _, by omega, hpos, by omega⟩
      rw [← hdi.streamEq]
      exact hdi
  have hrec41 := hdi1.rec4
  have hrecLe1 := hdi1.recLe
  have hu32 : U32_AT rs1.buf = len := by
    apply U32_AT_of_take rs1.buf len
    · rw [← hP]
      exact hdi1.hdr
    · omega
  rcases sched1 with _ | ⟨rn, rest2⟩
  · simp only [List.length_nil] at hcnt1
    omega
  have hrn : 1 ≤ rn := hpos1 rn (List.mem_cons_self rn rest2)
  have hrnn : ¬ rn ≤ 0 := by omega
  have htn : 1 ≤ rn.toNat := by omega
  have hsl1 : (frame.drop rs1.received).length = PACKET_HEADER_LEN + len - rs1.received := by
    rw [List.length_drop, hfl]
  set isz := if maxPayloadSize < len - (rs1.received - PACKET_HEADER_LEN) then maxPayloadSize
      else len - (rs1.received - PACKET_HEADER_LEN) with hiszdef
  have hisz0 : isz ≤ len - (rs1.received - PACKET_HEADER_LEN) := by
    rw [hiszdef]
    split
    · omega
    · omega
  have hiszmax : isz ≤ maxPayloadSize := by
    rw [hiszdef]
    split
    · omega
    · omega
  have hisz1 : 1 ≤ isz := by
    rw [hiszdef]
    split
    · omega
    · omega
  set k := min (min rn.toNat isz) (frame.drop rs1.received).length with hkdef
  have hk1 : 1 ≤ k := by
    rw [hkdef]
    omega
  have hkisz : k ≤ isz := by
    rw [hkdef]
    omega
  have hkstream : k ≤ (frame.drop rs1.received).length := by
    rw [hkdef]
    omega
  have hcl1 : ((frame.drop rs1.received).take k).length = k := by
    rw [List.length_take]
    omega
  have hknot : ¬ ((k : Int) ≤ 0) := by omega
  have htls := tlsRecv_cons_pos isz rn rest2 (frame.drop rs1.received) k hrnn hkdef
  simp only [List.length_cons] at hcnt1
  have hblen2 : (writeAt rs1.buf PACKET_HEADER_LEN ((frame.drop rs1.received).take k)).length =
      PACKET_MAX_LEN := by
    rw [writeAt_length, hdi1.blen]
    rw [hcl1, hdi1.blen]
    omega
  have hhdr2 : (writeAt rs1.buf PACKET_HEADER_LEN ((frame.drop rs1.received).take k)).take
      PACKET_HEADER_LEN = SetDWBE len := by
    rw [writeAt_take_left rs1.buf PACKET_HEADER_LEN PACKET_HEADER_LEN _ (le_refl _) (by
      rw [hdi1.blen]
      omega), hdi1.hdr]
  by_cases hcc : rs1.received + k < len + PACKET_HEADER_LEN
  · have hpb : pollinBody rs sched stream =
        (⟨(k : Int), false, some len, false, true⟩,
          ⟨rs1.received + k,
            writeAt rs1.buf PACKET_HEADER_LEN ((frame.drop rs1.received).take k)⟩,
          rest2, (frame.drop rs1.received).drop k) := by
      simp only [pollinBody, heq, hu32, if_pos hbig, ← hiszdef, htls, if_neg hknot, hcl1,
        if_pos hcc]
    refine ⟨_, _, _, _, hpb, rfl, rfl, rfl, rfl, Or.inr ⟨by
      show (0 : Int) < (k : Int)
      omega, ?_, by
      show rs.received < rs1.received + k
      omega, by
      show rs1.received + k < PACKET_HEADER_LEN + len
      omega, fun x hx => hpos1 x (List.mem_cons_of_mem rn hx), by
      show PACKET_HEADER_LEN + len - (rs1.received + k) ≤ rest2.length
      omega⟩⟩
    refine ⟨hblen2, hhdr2, by
      show PACKET_HEADER_LEN ≤ rs1.received + k
      omega, by
      show rs1.received + k ≤ PACKET_HEADER_LEN + len
      omega, by
      show (frame.drop rs1.received).drop k = frame.drop (rs1.received + k)
      rw [List.drop_drop]⟩
  · have hpb : pollinBody rs sched stream =
        (⟨-1, false, some len, false, true⟩,
          ⟨0, writeAt rs1.buf PACKET_HEADER_LEN ((frame.drop rs1.received).take k)⟩,
          rest2, (frame.drop rs1.received).drop k) := by
      simp only [pollinBody, heq, hu32, if_pos hbig, ← hiszdef, htls, if_neg hknot, hcl1,
        if_neg hcc]
    refine ⟨_, _, _, _, hpb, rfl, rfl, rfl, rfl, Or.inl ⟨rfl, rfl, ?_⟩⟩
    show (frame.drop rs1.received).drop k = []
    rw [List.drop_drop]
    apply List.drop_eq_nil_of_le
    omega

lemma runRecv_drain (len : Nat) (junk frame : List Nat)
    (hframe : frame = SetDWBE len ++ junk) (hj : junk.length = len)
    (hbig : maxPayloadSize < len) (hlt : len < 4294967296) :
    ∀ (fuel : Nat) (ks : KeepaliveState) (rs : RecvState) (sched : List Int)
      (stream : List Nat),
    ((FrameInv frame rs stream ∧ rs.received ≤ PACKET_HEADER_LEN) ∨
      DrainInv len frame rs stream) →
    rs.received < PACKET_HEADER_LEN + len →
    (∀ r ∈ sched, 1 ≤ r) →
    PACKET_HEADER_LEN + len - rs.received ≤ sched.length →
    PACKET_HEADER_LEN + len - rs.received ≤ fuel →
    ∃ res rs2 sched2 stream2,
      runRecv fuel ks rs sched stream = (res, defaultKeepalive, rs2, sched2, stream2) ∧
      res.ret = -1 ∧ res.msgReceived = false ∧ rs2.received = 0 ∧ stream2 = [] := by
  intro fuel
  induction fuel with
  | zero =>
    intro ks rs sched stream hentry hrec hpos hcnt hfuel
    omega
  | succ fuel ih =>
    intro ks rs sched stream hentry hrec hpos hcnt hfuel
    obtain ⟨res, rs2, sched2, stream2, hpb, hps, hdied, hass, hmsg, hcase⟩ :=
      pollinBody_step_drain len junk frame hframe hj hbig hlt rs sched stream hentry hrec
        hpos hcnt
    have hrp := recvPacket_dataReady_eq ks rs sched stream res rs2 sched2 stream2 hpb
    rcases hcase with ⟨hr1, hr0, hst⟩ | ⟨hret, hdi2, hlt1, hlt2, hpos2, hcnt2⟩
    · refine ⟨res, rs2, sched2, stream2, ?_, hr1, hmsg, hr0, hst⟩
      simp only [runRecv, hrp]
      rw [if_pos (Or.inr (by omega))]
    · obtain ⟨res3, rs3, sched3, stream3, hrun, h1, h2, h3, h4⟩ :=
        ih defaultKeepalive rs2 sched2 stream2 (Or.inr hdi2) hlt2 hpos2 hcnt2 (by omega)
      refine ⟨res3, rs3, sched3, stream3, ?_, h1, h2, h3, h4⟩
      simp only [runRecv, hrp]
      rw [if_neg ?_]
      · exact hrun
      · rintro (h | h)
        · rw [hmsg] at h
          exact Bool.false_ne_true h
        · omega

/-- Claim C4: a frame whose 4 byte big endian header declares a payload length
    above the maximum is drained in full and discarded for every chunking of
    the incoming bytes: the run ends with pi_received reset to 0, the whole
    declared length consumed off the stream, the error result -1, and no
    message ever buffered; a read returning ≤ 0 mid drain instead returns that
    underlying result unchanged. -/
theorem recvPacket_oversized_drain :
    (∀ (len : Nat) (junk : List Nat) (sched : List Int) (ks : KeepaliveState),
      maxPayloadSize < len → len < 4294967296 → junk.length = len →
      (∀ r ∈ sched, 1 ≤ r) → PACKET_HEADER_LEN + len ≤ sched.length →
      ∃ res rs2 sched2 stream2,
        runRecv (PACKET_HEADER_LEN + len) ks ⟨0, List.replicate PACKET_MAX_LEN 0⟩ sched
            (SetDWBE len ++ junk) = (res, defaultKeepalive, rs2, sched2, stream2) ∧
        res.ret = -1 ∧ res.msgReceived = false ∧ rs2.received = 0 ∧ stream2 = []) ∧
    (∀ (ks : KeepaliveState) (rs : RecvState) (stream : List Nat) (e : Int)
      (rest : List Int), e ≤ 0 → PACKET_HEADER_LEN ≤ rs.received →
      ∃ res, recvPacket .dataReady ks rs (e :: rest) stream =
          (res, defaultKeepalive, rs, rest, stream) ∧
        res.ret = e ∧ res.msgReceived = false) := by
  constructor
  · intro len junk sched ks hbig hlt hj hpos hcnt
    exact runRecv_drain len junk (SetDWBE len ++ junk) rfl hj hbig hlt
      (PACKET_HEADER_LEN + len) ks ⟨0, List.replicate PACKET_MAX_LEN 0⟩ sched
      (SetDWBE len ++ junk)
      (Or.inl ⟨initial_FrameInv (SetDWBE len ++ junk), by
        show (0 : Nat) ≤ PACKET_HEADER_LEN
        omega⟩)
      (by
        show 0 < PACKET_HEADER_LEN + len
        omega)
      hpos
      (by
        show PACKET_HEADER_LEN + len - 0 ≤ sched.length
        omega)
      (by
        show PACKET_HEADER_LEN + len - 0 ≤ PACKET_HEADER_LEN + len
        omega)
  · intro ks rs stream e rest he _h4
    exact recvPacket_err_entry ks rs stream e rest he

theorem recvPacket_oversized_drain_witness :
    (maxPayloadSize < 10237 ∧ (10237 : Nat) < 4294967296 ∧
      (List.replicate 10237 (0 : Nat)).length = 10237 ∧
      (∀ r ∈ List.replicate 10241 (10240 : Int), 1 ≤ r) ∧
      PACKET_HEADER_LEN + 10237 ≤ (List.replicate 10241 (10240 : Int)).length) ∧
    ∃ res rs2 sched2 stream2,
      runRecv (PACKET_HEADER_LEN + 10237) defaultKeepalive
          ⟨0, List.replicate PACKET_MAX_LEN 0⟩ (List.replicate 10241 (10240 : Int))
          (SetDWBE 10237 ++ List.replicate 10237 0) =
        (res, defaultKeepalive, rs2, sched2, stream2) ∧
      res.ret = -1 ∧ res.msgReceived = false ∧ rs2.received = 0 ∧ stream2 = [] :=
  ⟨⟨by decide, by decide, by rw [List.length_replicate], by
      intro r hr
      rw [List.eq_of_mem_replicate hr]
      omega, by
      rw [List.length_replicate]
      decide⟩,
    recvPacket_oversized_drain.1 10237 (List.replicate 10237 0)
      (List.replicate 10241 (10240 : Int)) defaultKeepalive (by decide) (by decide)
      (by rw [List.length_replicate])
      (by
        intro r hr
        rw [List.eq_of_mem_replicate hr]
        omega)
      (by
        rw [List.length_replicate]
        decide)⟩

/- ===== Buffer bounds and the completion assertion (claim C10) ===== -/

/-- Consistency of the accumulator on entry to recvPacket: the caller buffer
    holds PACKET_MAX_LEN bytes, and once the header is complete the count never
    exceeds the header length plus the declared payload length read from the
    buffer. Buffer length preservation is exactly the in-bounds property of
    every write done through writeAt. -/
def WellFormed (rs : RecvState) : Prop :=
  rs.buf.length = PACKET_MAX_LEN ∧ (∀ b ∈ rs.buf, b < 256) ∧
    (rs.received < PACKET_HEADER_LEN ∨
      rs.received ≤ PACKET_HEADER_LEN + U32_AT rs.buf)

lemma writeAt_bytes (buf c : List Nat) (off : Nat) (hb : ∀ b ∈ buf, b < 256)
    (hc : ∀ b ∈ c, b < 256) : ∀ b ∈ writeAt buf off c, b < 256 := by
  intro b hbm
  simp only [writeAt, List.append_assoc, List.mem_append] at hbm
  rcases hbm with h | h | h
  · exact hb b (List.take_subset off buf h)
  · exact hc b h
  · exact hb b (List.drop_subset _ buf h)

lemma U32_AT_take4 (l : List Nat) : U32_AT (l.take 4) = U32_AT l := by
  rcases l with _ | ⟨a, _ | ⟨b, _ | ⟨c, _ | ⟨d, t⟩⟩⟩⟩ <;> rfl

lemma U32_AT_congr (l l2 : List Nat) (h : l.take 4 = l2.take 4) : U32_AT l = U32_AT l2 := by
  rw [← U32_AT_take4 l, ← U32_AT_take4 l2, h]

lemma tlsRecv_nil (req : Nat) (stream : List Nat) :
    tlsRecv req [] stream = (0, [], [], stream) := rfl

lemma headerLoop_wf : ∀ (sched : List Int) (rs : RecvState) (stream : List Nat),
    rs.buf.length = PACKET_MAX_LEN → (∀ b ∈ rs.buf, b < 256) →
    (∀ b ∈ stream, b < 256) → rs.received ≤ PACKET_HEADER_LEN →
    ∃ o rs1 sched1 stream1,
      headerLoop sched rs stream = (o, rs1, sched1, stream1) ∧
      rs1.buf.length = PACKET_MAX_LEN ∧ (∀ b ∈ rs1.buf, b < 256) ∧
      (∀ b ∈ stream1, b < 256) ∧ rs1.received ≤ PACKET_HEADER_LEN ∧
      (o = none → rs1.received = PACKET_HEADER_LEN) := by
  intro sched
  induction sched with
  | nil =>
    intro rs stream hb hby hst hle
    by_cases h4 : rs.received < PACKET_HEADER_LEN
    · refine ⟨some 0, rs, [], stream, ?_, hb, hby, hst, hle, by simp⟩
      simp only [headerLoop]
      rw [if_pos h4]
    · refine ⟨none, rs, [], stream, ?_, hb, hby, hst, hle, fun _ => by omega⟩
      simp only [headerLoop]
      rw [if_neg h4]
  | cons r rest ih =>
    intro rs stream hb hby hst hle
    by_cases h4 : rs.received < PACKET_HEADER_LEN
    · by_cases hr : r ≤ 0
      · refine ⟨some r, rs, rest, stream, ?_, hb, hby, hst, hle, by simp⟩
        exact headerLoop_cons_err r rest rs stream h4 hr
      · set k := min (min r.toNat (PACKET_HEADER_LEN - rs.received)) stream.length with hk
        by_cases hk0 : k = 0
        · refine ⟨some 0, rs, rest, stream, ?_, hb, hby, hst, hle, by simp⟩
          simp only [headerLoop]
          rw [if_pos h4, if_neg hr, ← hk, if_pos hk0]
        · have hkle : k ≤ PACKET_HEADER_LEN - rs.received := by
            rw [hk]
            omega
          have hkstream : k ≤ stream.length := by
            rw [hk]
            omega
          have hcl : (stream.take k).length = k := by
            rw [List.length_take]
            omega
          have hP : PACKET_HEADER_LEN = 4 := rfl
          have hM : PACKET_MAX_LEN = 10240 := rfl
          have hblen2 : (writeAt rs.buf rs.received (stream.take k)).length =
              PACKET_MAX_LEN := by
            rw [writeAt_length, hb]
            rw [hcl, hb]
            omega
          obtain ⟨o, rs1, sched1, stream1, heq, hb1, hby1, hst1, hle1, hnone1⟩ :=
            ih ⟨rs.received + k, writeAt rs.buf rs.received (stream.take k)⟩ (stream.drop k)
              hblen2
              (writeAt_bytes rs.buf (stream.take k) rs.received hby
                (fun b hbm => hst b (List.take_subset k stream hbm)))
              (fun b hbm => hst b (List.drop_subset k stream hbm))
              (by
                show rs.received + k ≤ PACKET_HEADER_LEN
                omega)
          refine ⟨o, rs1, sched1, stream1, ?_, hb1, hby1, hst1, hle1, hnone1⟩
          rw [headerLoop_cons_pos r rest rs stream k h4 hr hk hk0]
          exact heq
    · refine ⟨none, rs, r :: rest, stream, ?_, hb, hby, hst, hle, fun _ => by omega⟩
      exact headerLoop_ge _ _ _ (by omega)

lemma pollinBody_wf_tail (rs rs1 : RecvState) (sched sched1 : List Int)
    (stream stream1 : List Nat)
    (heq : headerLoop sched rs stream = (none, rs1, sched1, stream1))
    (hb1 : rs1.buf.length = PACKET_MAX_LEN) (hby1 : ∀ b ∈ rs1.buf, b < 256)
    (hst1 : ∀ b ∈ stream1, b < 256) (hr4 : PACKET_HEADER_LEN ≤ rs1.received)
    (hle : rs1.received ≤ PACKET_HEADER_LEN + U32_AT rs1.buf) :
    ∃ res rs2 sched2 stream2,
      pollinBody rs sched stream = (res, rs2, sched2, stream2) ∧
      WellFormed rs2 ∧ res.assertOk = true ∧ (∀ b ∈ stream2, b < 256) := by
  have hP : PACKET_HEADER_LEN = 4 := rfl
  have hM : PACKET_MAX_LEN = 10240 := rfl
  have hX : maxPayloadSize = 10236 := rfl
  set u := U32_AT rs1.buf with hu
  by_cases hbig : maxPayloadSize < u
  · rcases sched1 with _ | ⟨rn, rest2⟩
    · refine ⟨⟨0, false, some u, false, true⟩, rs1, [], stream1, ?_,
        ⟨hb1, hby1, Or.inr hle⟩, rfl, hst1⟩
      simp only [pollinBody, heq, ← hu, if_pos hbig, tlsRecv_nil]
      rw [if_pos (le_refl (0 : Int))]
    · by_cases hrn : rn ≤ 0
      · refine ⟨⟨rn, false, some u, false, true⟩, rs1, rest2, stream1, ?_,
          ⟨hb1, hby1, Or.inr hle⟩, rfl, hst1⟩
        have htls := tlsRecv_cons_err
          (if maxPayloadSize < u - (rs1.received - PACKET_HEADER_LEN) then maxPayloadSize
            else u - (rs1.received - PACKET_HEADER_LEN)) rn rest2 stream1 hrn
        simp only [pollinBody, heq, ← hu, if_pos hbig, htls]
        rw [if_pos hrn]
      · set isz := if maxPayloadSize < u - (rs1.received - PACKET_HEADER_LEN) then
            maxPayloadSize else u - (rs1.received - PACKET_HEADER_LEN) with hiszdef
        have hisz0 : isz ≤ u - (rs1.received - PACKET_HEADER_LEN) := by
          rw [hiszdef]
          split <;> omega
        have hiszmax : isz ≤ maxPayloadSize := by
          rw [hiszdef]
          split <;> omega
        set k := min (min rn.toNat isz) stream1.length with hkdef
        have htls := tlsRecv_cons_pos isz rn rest2 stream1 k hrn hkdef
        by_cases hk0 : k = 0
        · refine ⟨⟨(k : Int), false, some u, false, true⟩, rs1, rest2, stream1.drop k, ?_,
            ⟨hb1, hby1, Or.inr hle⟩, rfl, fun b hb => hst1 b (List.drop_subset k stream1 hb)⟩
          simp only [pollinBody, heq, ← hu, if_pos hbig, ← hiszdef, htls]
          rw [if_pos (by omega : (k : Int) ≤ 0)]
        · have hk1 : 1 ≤ k := by omega
          have hkisz : k ≤ isz := by
            rw [hkdef]
            omega
          have hkstream : k ≤ stream1.length := by
            rw [hkdef]
            omega
          have hcl : (stream1.take k).length = k := by
            rw [List.length_take]
            omega
          have hknot : ¬ ((k : Int) ≤ 0) := by omega
          have hblen2 : (writeAt rs1.buf PACKET_HEADER_LEN (stream1.take k)).length =
              PACKET_MAX_LEN := by
            rw [writeAt_length, hb1]
            rw [hcl, hb1]
            omega
          have hby2 : ∀ b ∈ writeAt rs1.buf PACKET_HEADER_LEN (stream1.take k), b < 256 :=
            writeAt_bytes _ _ _ hby1 (fun b hbm => hst1 b (List.take_subset k stream1 hbm))
          have hu2 : U32_AT (writeAt rs1.buf PACKET_HEADER_LEN (stream1.take k)) = u := by
            rw [hu]
            apply U32_AT_congr
            exact writeAt_take_left rs1.buf PACKET_HEADER_LEN 4 (stream1.take k) (by omega)
              (by
                rw [hb1]
                omega)
          by_cases hcc : rs1.received + k < u + PACKET_HEADER_LEN
          · refine ⟨⟨(k : Int), false, some u, false, true⟩,
              ⟨rs1.received + k, writeAt rs1.buf PACKET_HEADER_LEN (stream1.take k)⟩, rest2,
              stream1.drop k, ?_, ⟨hblen2, hby2, Or.inr ?_⟩, rfl,
              fun b hb => hst1 b (List.drop_subset k stream1 hb)⟩
            · simp only [pollinBody, heq, ← hu, if_pos hbig, ← hiszdef, htls, if_neg hknot,
                hcl, if_pos hcc]
            · show rs1.received + k ≤ PACKET_HEADER_LEN +
                U32_AT (writeAt rs1.buf PACKET_HEADER_LEN (stream1.take k))
              rw [hu2]
              omega
          · refine ⟨⟨-1, false, some u, false, true⟩,
              ⟨0, writeAt rs1.buf PACKET_HEADER_LEN (stream1.take k)⟩, rest2,
              stream1.drop k, ?_, ⟨hblen2, hby2, Or.inl (by
                show (0 : Nat) < PACKET_HEADER_LEN
                omega)⟩, rfl,
              fun b hb => hst1 b (List.drop_subset k stream1 hb)⟩
            simp only [pollinBody, heq, ← hu, if_pos hbig, ← hiszdef, htls, if_neg hknot,
              hcl, if_neg hcc]
  · rcases sched1 with _ | ⟨rn, rest2⟩
    · refine ⟨⟨0, false, some u, false, true⟩, rs1, [], stream1, ?_,
        ⟨hb1, hby1, Or.inr hle⟩, rfl, hst1⟩
      simp only [pollinBody, heq, ← hu, if_neg hbig, tlsRecv_nil]
      rw [if_pos (le_refl (0 : Int))]
    · by_cases hrn : rn ≤ 0
      · refine ⟨⟨rn, false, some u, false, true⟩, rs1, rest2, stream1, ?_,
          ⟨hb1, hby1, Or.inr hle⟩, rfl, hst1⟩
        have htls := tlsRecv_cons_err (u - (rs1.received - PACKET_HEADER_LEN)) rn rest2
          stream1 hrn
        simp only [pollinBody, heq, ← hu, if_neg hbig, htls]
        rw [if_pos hrn]
      · set k := min (min rn.toNat (u - (rs1.received - PACKET_HEADER_LEN)))
            stream1.length with hkdef
        have htls := tlsRecv_cons_pos (u - (rs1.received - PACKET_HEADER_LEN)) rn rest2
          stream1 k hrn hkdef
        by_cases hk0 : k = 0
        · refine ⟨⟨(k : Int), false, some u, false, true⟩, rs1, rest2, stream1.drop k, ?_,
            ⟨hb1, hby1, Or.inr hle⟩, rfl, fun b hb => hst1 b (List.drop_subset k stream1 hb)⟩
          simp only [pollinBody, heq, ← hu, if_neg hbig, htls]
          rw [if_pos (by omega : (k : Int) ≤ 0)]
        · have hk1 : 1 ≤ k := by omega
          have hkreq : k ≤ u - (rs1.received - PACKET_HEADER_LEN) := by
            rw [hkdef]
            omega
          have hkstream : k ≤ stream1.length := by
            rw [hkdef]
            omega
          have hcl : (stream1.take k).length = k := by
            rw [List.length_take]
            omega
          have hknot : ¬ ((k : Int) ≤ 0) := by omega
          have hblen2 : (writeAt rs1.buf rs1.received (stream1.take k)).length =
              PACKET_MAX_LEN := by
            rw [writeAt_length, hb1]
            rw [hcl, hb1]
            omega
          have hby2 : ∀ b ∈ writeAt rs1.buf rs1.received (stream1.take k), b < 256 :=
            writeAt_bytes _ _ _ hby1 (fun b hbm => hst1 b (List.take_subset k stream1 hbm))
          have hu2 : U32_AT (writeAt rs1.buf rs1.received (stream1.take k)) = u := by
            rw [hu]
            apply U32_AT_congr
            exact writeAt_take_left rs1.buf rs1.received 4 (stream1.take k) (by omega)
              (by
                rw [hb1]
                omega)
          by_cases hcc : rs1.received + k < u + PACKET_HEADER_LEN
          · refine ⟨⟨(k : Int), false, some u, false, true⟩,
              ⟨rs1.received + k, writeAt rs1.buf rs1.received (stream1.take k)⟩, rest2,
              stream1.drop k, ?_, ⟨hblen2, hby2, Or.inr ?_⟩, rfl,
              fun b hb => hst1 b (List.drop_subset k stream1 hb)⟩
            · simp only [pollinBody, heq, ← hu, if_neg hbig, htls, if_neg hknot, hcl,
                if_pos hcc]
            · show rs1.received + k ≤ PACKET_HEADER_LEN +
                U32_AT (writeAt rs1.buf rs1.received (stream1.take k))
              rw [hu2]
              omega
          · have hceq : rs1.received + k = u + PACKET_HEADER_LEN := by omega
            refine ⟨⟨(k : Int), true, some u, false,
              (rs1.received + k == u + PACKET_HEADER_LEN)⟩,
              ⟨0, writeAt rs1.buf rs1.received (stream1.take k)⟩, rest2,
              stream1.drop k, ?_, ⟨hblen2, hby2, Or.inl (by
                show (0 : Nat) < PACKET_HEADER_LEN
                omega)⟩, ?_,
              fun b hb => hst1 b (List.drop_subset k stream1 hb)⟩
            · simp only [pollinBody, heq, ← hu, if_neg hbig, htls, if_neg hknot, hcl,
                if_neg hcc]
            · show (rs1.received + k == u + PACKET_HEADER_LEN) = true
              rw [hceq]
              simp

lemma pollinBody_wf (rs : RecvState) (sched : List Int) (stream : List Nat)
    (hwf : WellFormed rs) (hstream : ∀ b ∈ stream, b < 256) :
    ∃ res rs2 sched2 stream2,
      pollinBody rs sched stream = (res, rs2, sched2, stream2) ∧
      WellFormed rs2 ∧ res.assertOk = true ∧ (∀ b ∈ stream2, b < 256) := by
  obtain ⟨hblen, hbytes, hdisj⟩ := hwf
  by_cases h4 : rs.received < PACKET_HEADER_LEN
  · obtain ⟨o, rs1, sched1, stream1, heq, hb1, hby1, hst1, hle1, hnone⟩ :=
      headerLoop_wf sched rs stream hblen hbytes hstream (by omega)
    cases o with
    | some e =>
      refine ⟨⟨e, false, none, false, true⟩, rs1, sched1, stream1, ?_, ⟨hb1, hby1, ?_⟩,
        rfl, hst1⟩
      · simp only [pollinBody, heq]
      · rcases Nat.lt_or_ge rs1.received PACKET_HEADER_LEN with h | h
        · exact Or.inl h
        · exact Or.inr (by omega)
    | none =>
      have h41 : rs1.received = PACKET_HEADER_LEN := hnone rfl
      exact pollinBody_wf_tail rs rs1 sched sched1 stream stream1 heq hb1 hby1 hst1
        (by omega) (by omega)
  · have heq := headerLoop_ge sched rs stream (by omega)
    exact pollinBody_wf_tail rs rs sched sched stream stream heq hblen hbytes hstream
      (by omega) (hdisj.resolve_left (by omega))

/-- Claim C10: starting from a consistent accumulator (count within header
    length plus declared payload once the header is known, buffer of capacity
    PACKET_MAX_LEN holding bytes), every receive performed by one recvPacket
    invocation writes only inside the buffer (its length is preserved, which
    in this embedding is exactly the in-bounds property of writeAt), the
    consistency is preserved for the next invocation, and the completion time
    assertion of source line 236 holds on every path. -/
theorem recvPacket_writes_in_bounds (ev : PollEvent) (ks : KeepaliveState) (rs : RecvState)
    (sched : List Int) (stream : List Nat) (hwf : WellFormed rs)
    (hstream : ∀ b ∈ stream, b < 256) :
    ∃ res ks2 rs2 sched2 stream2,
      recvPacket ev ks rs sched stream = (res, ks2, rs2, sched2, stream2) ∧
      rs2.buf.length = PACKET_MAX_LEN ∧ WellFormed rs2 ∧ res.assertOk = true ∧
      (∀ b ∈ stream2, b < 256) := by
  cases ev with
  | errOther =>
    exact ⟨⟨-1, false, none, false, true⟩, ks, rs, sched, stream, rfl, hwf.1, hwf, rfl,
      hstream⟩
  | errIntr =>
    exact ⟨⟨1, false, none, false, true⟩, defaultKeepalive, rs, sched, stream, rfl, hwf.1,
      hwf, rfl, hstream⟩
  | timeout =>
    by_cases hpt : ks.pingTimeout
    · by_cases hwr : ks.waitRetries = 0
      · refine ⟨⟨0, false, none, true, true⟩, ks, rs, sched, stream, ?_, hwf.1, hwf, rfl,
          hstream⟩
        simp only [recvPacket, if_pos hpt, if_pos hwr]
      · refine ⟨⟨0, false, none, false, true⟩, ⟨true, ks.waitDelay, ks.waitRetries - 1⟩,
          rs, sched, stream, ?_, hwf.1, hwf, rfl, hstream⟩
        simp only [recvPacket, if_pos hpt, if_neg hwr]
    · refine ⟨⟨0, false, none, false, true⟩, ⟨true, PONG_WAIT_TIME, PONG_WAIT_RETRIES⟩,
        rs, sched, stream, ?_, hwf.1, hwf, rfl, hstream⟩
      simp only [recvPacket, if_neg hpt]
  | dataReady =>
    obtain ⟨res, rs2, sched2, stream2, hpb, hwf2, hass, hst2⟩ :=
      pollinBody_wf rs sched stream hwf hstream
    exact ⟨res, defaultKeepalive, rs2, sched2, stream2,
      recvPacket_dataReady_eq ks rs sched stream res rs2 sched2 stream2 hpb, hwf2.1, hwf2,
      hass, hst2⟩

theorem recvPacket_writes_in_bounds_witness :
    (WellFormed ⟨0, List.replicate PACKET_MAX_LEN 0⟩ ∧
      (∀ b ∈ ([0, 0, 0, 1, 7] : List Nat), b < 256)) ∧
    ∃ res ks2 rs2 sched2 stream2,
      recvPacket .dataReady defaultKeepalive ⟨0, List.replicate PACKET_MAX_LEN 0⟩
          [(3 : Int)] [0, 0, 0, 1, 7] = (res, ks2, rs2, sched2, stream2) ∧
      rs2.buf.length = PACKET_MAX_LEN ∧ WellFormed rs2 ∧ res.assertOk = true ∧
      (∀ b ∈ stream2, b < 256) := by
  have hwf : WellFormed ⟨0, List.replicate PACKET_MAX_LEN 0⟩ := by
    refine ⟨by rw [List.length_replicate], ?_, Or.inl (by decide)⟩
    intro b hb
    rw [List.eq_of_mem_replicate hb]
    omega
  exact ⟨⟨hwf, by decide⟩, recvPacket_writes_in_bounds .dataReady defaultKeepalive
    ⟨0, List.replicate PACKET_MAX_LEN 0⟩ [(3 : Int)] [0, 0, 0, 1, 7] hwf (by decide)⟩

/- ===== Keepalive timing (claim C6) and connect unwinding (claim C1) ===== -/

/-- Claim C6: from the default keepalive state (flag clear), the first poll
    timeout sets pb_pingTimeout, shortens the wait delay to the pong deadline
    and resets the retry budget (source lines 164 to 171); each further
    consecutive timeout consumes one retry; the distinguished connection-died
    return 0 of source line 160 happens exactly at the
    (PONG_WAIT_RETRIES + 1)-th window after the first ping triggering timeout
    and never earlier; and any data arrival restores the default wait delay
    and retry budget, clearing the flag (source lines 173 to 179). -/
theorem recvPacket_keepalive_dead_at_last_window :
    (∀ (ks : KeepaliveState) (rs : RecvState) (sched : List Int) (stream : List Nat),
      (recvPacket .dataReady ks rs sched stream).2.1 = defaultKeepalive) ∧
    ((recvTimeoutStep defaultKeepalive).2 = ⟨true, PONG_WAIT_TIME, PONG_WAIT_RETRIES⟩ ∧
      (recvTimeoutStep defaultKeepalive).1.ret = 0 ∧
      (recvTimeoutStep defaultKeepalive).1.died = false) ∧
    (∀ n : Nat, 1 ≤ n → n ≤ PONG_WAIT_RETRIES + 1 →
      (recvTimeoutStep (ksIter (n - 1) defaultKeepalive)).1.died = false) ∧
    ((recvTimeoutStep (ksIter (PONG_WAIT_RETRIES + 1) defaultKeepalive)).1.died = true ∧
      (recvTimeoutStep (ksIter (PONG_WAIT_RETRIES + 1) defaultKeepalive)).1.ret = 0) := by
  refine ⟨?_, by decide, ?_, by decide⟩
  · intro ks rs sched stream
    rcases hp : pollinBody rs sched stream with ⟨res, rs2, sched2, stream2⟩
    simp only [recvPacket, hp]
  · intro n h1 h2
    have h2a : n ≤ 3 := h2
    interval_cases n <;> decide

theorem recvPacket_keepalive_dead_witness :
    ((1 : Nat) ≤ 3 ∧ (3 : Nat) ≤ PONG_WAIT_RETRIES + 1) ∧
    (recvTimeoutStep (ksIter (3 - 1) defaultKeepalive)).1.died = false :=
  ⟨⟨by decide, by decide⟩,
    recvPacket_keepalive_dead_at_last_window.2.2.1 3 (by decide) (by decide)⟩

/-- Claim C1 (evidence for a code bug): when the TCP connect succeeds but the
    local address resolution fails, connect returns false yet leaves the TCP
    socket open, because the early return at source line 61 is not preceded by
    net_Close; and disconnect only releases through the TLS session, which was
    never created on that path. The remaining conjuncts show every other
    failure path does release everything acquired, which is the stated intent
    of the spec for all paths. -/
theorem connect_sockaddr_failure_leaks_socket :
    (connect ⟨true, false, true, true, "10.0.0.5"⟩ = (false, ⟨true, false, false⟩) ∧
      (connect ⟨true, false, true, true, "10.0.0.5"⟩).2.sockOpen = true) ∧
    connect ⟨false, true, true, true, "10.0.0.5"⟩ = (false, ⟨false, false, false⟩) ∧
    connect ⟨true, true, false, true, "10.0.0.5"⟩ = (false, ⟨false, false, false⟩) ∧
    connect ⟨true, true, true, false, "10.0.0.5"⟩ = (false, ⟨false, false, false⟩) ∧
    connect ⟨true, true, true, true, "10.0.0.5"⟩ = (true, ⟨true, true, true⟩) :=
  ⟨⟨rfl, rfl⟩, rfl, rfl, rfl, rfl⟩

/- ===== String containment lemmas ===== -/

lemma strToList_append (a b : String) : (a ++ b).toList = a.toList ++ b.toList := by
  rcases a with ⟨la⟩
  rcases b with ⟨lb⟩
  rfl

lemma containsSeg_self_append (n b : List Char) : containsSeg n (n ++ b) = true := by
  have hpre : n.isPrefixOf (n ++ b) = true :=
    List.isPrefixOf_iff_prefix.mpr (List.prefix_append n b)
  cases hnb : n ++ b with
  | nil =>
    have hn : n = [] := by
      cases n with
      | nil => rfl
      | cons c t => simp at hnb
    rw [hn]
    rfl
  | cons c t =>
    simp only [containsSeg]
    rw [← hnb, hpre]
    simp

lemma containsSeg_append_mid : ∀ (a n b : List Char), containsSeg n (a ++ (n ++ b)) = true := by
  intro a
  induction a with
  | nil =>
    intro n b
    rw [List.nil_append]
    exact containsSeg_self_append n b
  | cons c t ih =>
    intro n b
    rw [List.cons_append]
    simp only [containsSeg]
    rw [ih n b]
    simp

lemma strContains_of_eq (hay a n b : String) (h : hay = a ++ (n ++ b)) :
    strContains n hay = true := by
  rw [h, strContains, strToList_append, strToList_append]
  exact containsSeg_append_mid _ _ _

lemma containsSeg_subset (n : List Char) : ∀ (h : List Char),
    containsSeg n h = true → n ⊆ h := by
  intro h
  induction h with
  | nil =>
    intro hc x hx
    cases n with
    | nil => simp at hx
    | cons c t => simp [containsSeg] at hc
  | cons c t ih =>
    intro hc
    simp only [containsSeg, Bool.or_eq_true] at hc
    rcases hc with hc | hc
    · exact (List.isPrefixOf_iff_prefix.mp hc).subset
    · intro x hx
      exact List.mem_cons_of_mem c (ih hc hx)

lemma strContains_false_of_missing_char (n hay : String) (c : Char) (hcn : c ∈ n.toList)
    (hch : c ∉ hay.toList) : strContains n hay = false := by
  rw [strContains]
  cases hcontains : containsSeg n.toList hay.toList with
  | false => rfl
  | true => exact absurd (containsSeg_subset _ _ hcontains hcn) hch

/- ===== Decimal rendering of naturals contains only digit characters ===== -/

lemma digitChar_ne_bracket (m : Nat) : Nat.digitChar m ≠ ('[' : Char) := by
  rcases Nat.lt_or_ge m 16 with h | h
  · interval_cases m <;> decide
  · have he : Nat.digitChar m = ('*' : Char) := by
      simp only [Nat.digitChar]
      rw [if_neg (by omega : ¬ m = 0), if_neg (by omega : ¬ m = 1),
        if_neg (by omega : ¬ m = 2), if_neg (by omega : ¬ m = 3),
        if_neg (by omega : ¬ m = 4), if_neg (by omega : ¬ m = 5),
        if_neg (by omega : ¬ m = 6), if_neg (by omega : ¬ m = 7),
        if_neg (by omega : ¬ m = 8), if_neg (by omega : ¬ m = 9),
        if_neg (by omega : ¬ m = 10), if_neg (by omega : ¬ m = 11),
        if_neg (by omega : ¬ m = 12), if_neg (by omega : ¬ m = 13),
        if_neg (by omega : ¬ m = 14), if_neg (by omega : ¬ m = 15)]
    rw [he]
    decide

lemma toDigitsCore_chars (b : Nat) : ∀ (fuel n : Nat) (ds : List Char) (c : Char),
    c ∈ Nat.toDigitsCore b fuel n ds → c ∈ ds ∨ ∃ m, c = Nat.digitChar m := by
  intro fuel
  induction fuel with
  | zero =>
    intro n ds c hc
    exact Or.inl hc
  | succ fuel ih =>
    intro n ds c hc
    simp only [Nat.toDigitsCore] at hc
    split at hc
    · rcases List.mem_cons.mp hc with h | h
      · exact Or.inr ⟨n % b, h⟩
      · exact Or.inl h
    · rcases ih (n / b) (Nat.digitChar (n % b) :: ds) c hc with h | h
      · rcases List.mem_cons.mp h with h2 | h2
        · exact Or.inr ⟨n % b, h2⟩
        · exact Or.inl h2
      · exact Or.inr h

lemma toString_nat_no_bracket (n : Nat) (c : Char) (hc : c ∈ (toString n).toList) :
    c ≠ ('[' : Char) := by
  have hc2 : c ∈ Nat.toDigitsCore 10 (n + 1) n [] := hc
  rcases toDigitsCore_chars 10 (n + 1) n [] c hc2 with h | ⟨m, hm⟩
  · simp at h
  · rw [hm]
    exact digitChar_ne_bracket m


/- ===== Claim C8: the media descriptor built by GetMedia ===== -/

/-- Claim C8 counterexample: the artwork string httpX is not an http(s) URL
    (it has no scheme separator), yet GetMedia forwards it as an images entry,
    because the source only tests the four byte sequence http at the front
    (strncmp at source line 328). This refutes the claimed equivalence
    "forwarded iff the artwork is itself an http(s) URL". -/
theorem GetMedia_artwork_iff_counterexample :
    strContains (",\"images\":[\"httpX\"]")
        (GetMedia ⟨"10.0.0.5", 0, 0⟩ 8080 ("X") ("httpX") ("video/mp4")) = true ∧
    isHttpUrl ("httpX") = false := by
  constructor
  · decide
  · decide

/-- Claim C8 (amended): the media descriptor contains a content URL that is
    exactly http:// plus the local IP, colon, the port and /stream, sets the
    stream type to LIVE, and carries the artwork as an images entry exactly
    when the title is nonempty, the artwork is nonempty, and the artwork
    starts with the four characters http (which admits https but also any
    other continuation); for inputs free of the bracket character the images
    marker is provably absent otherwise. The section 8 example inputs produce
    the full descriptor literally. -/
theorem GetMedia_descriptor_fields (s : CCState) (i_port : Nat)
    (title artwork mime : String) :
    strContains ("\"contentId\":\"http://" ++ s.serverIp ++ ":" ++ toString i_port ++
        "/stream\"") (GetMedia s i_port title artwork mime) = true ∧
    strContains (",\"streamType\":\"LIVE\"") (GetMedia s i_port title artwork mime) = true ∧
    ((0 < title.length ∧ 0 < artwork.length ∧ ("http").toList.isPrefixOf artwork.toList) →
      strContains (",\"images\":[\"" ++ artwork ++ "\"]")
        (GetMedia s i_port title artwork mime) = true) ∧
    (¬ (0 < title.length ∧ 0 < artwork.length ∧
        ("http").toList.isPrefixOf artwork.toList) →
      (∀ c ∈ title.toList, c ≠ ('[' : Char)) →
      (∀ c ∈ s.serverIp.toList, c ≠ ('[' : Char)) →
      (∀ c ∈ mime.toList, c ≠ ('[' : Char)) →
      strContains ("\"images\":[") (GetMedia s i_port title artwork mime) = false) ∧
    GetMedia ⟨"10.0.0.5", 0, 0⟩ 8080 ("X") ("http://img/a.png") ("video/mp4") =
      "\"metadata\":\x7b \"metadataType\":0,\"title\":\"X\",\"images\":[\"http://img/a.png\"]\x7d,\"contentId\":\"http://10.0.0.5:8080/stream\",\"streamType\":\"LIVE\",\"contentType\":\"video/mp4\"" := by
  refine ⟨?_, ?_, ?_, ?_, by rfl⟩
  · by_cases hti : 0 < title.length
    · by_cases hart : 0 < artwork.length ∧ ("http").toList.isPrefixOf artwork.toList
      · apply strContains_of_eq _
          ("\"metadata\":\x7b \"metadataType\":0,\"title\":\"" ++ title ++
            "\",\"images\":[\"" ++ artwork ++ "\"]\x7d,") _
          (",\"streamType\":\"LIVE\",\"contentType\":\"" ++ mime ++ "\"")
        simp only [GetMedia, if_pos hti, if_pos hart, String.append_assoc]
        rfl
      · apply strContains_of_eq _
          ("\"metadata\":\x7b \"metadataType\":0,\"title\":\"" ++ title ++ "\"\x7d,") _
          (",\"streamType\":\"LIVE\",\"contentType\":\"" ++ mime ++ "\"")
        simp only [GetMedia, if_pos hti, if_neg hart, String.append_assoc]
        rfl
    · apply strContains_of_eq _ ("") _
        (",\"streamType\":\"LIVE\",\"contentType\":\"" ++ mime ++ "\"")
      simp only [GetMedia, if_neg hti, String.append_assoc]
      rfl
  · by_cases hti : 0 < title.length
    · by_cases hart : 0 < artwork.length ∧ ("http").toList.isPrefixOf artwork.toList
      · apply strContains_of_eq _
          ("\"metadata\":\x7b \"metadataType\":0,\"title\":\"" ++ title ++
            "\",\"images\":[\"" ++ artwork ++ "\"]\x7d,\"contentId\":\"http://" ++
            s.serverIp ++ ":" ++ toString i_port ++ "/stream\"") _
          (",\"contentType\":\"" ++ mime ++ "\"")
        simp only [GetMedia, if_pos hti, if_pos hart, String.append_assoc]
        rfl
      · apply strContains_of_eq _
          ("\"metadata\":\x7b \"metadataType\":0,\"title\":\"" ++ title ++
            "\"\x7d,\"contentId\":\"http://" ++ s.serverIp ++ ":" ++ toString i_port ++
            "/stream\"") _
          (",\"contentType\":\"" ++ mime ++ "\"")
        simp only [GetMedia, if_pos hti, if_neg hart, String.append_assoc]
        rfl
    · apply strContains_of_eq _
        ("\"contentId\":\"http://" ++ s.serverIp ++ ":" ++ toString i_port ++
          "/stream\"") _
        (",\"contentType\":\"" ++ mime ++ "\"")
      simp only [GetMedia, if_neg hti, String.append_assoc]
      rfl
  · intro hcond
    have hti : 0 < title.length := hcond.1
    have hart : 0 < artwork.length ∧ ("http").toList.isPrefixOf artwork.toList := hcond.2
    apply strContains_of_eq _
      ("\"metadata\":\x7b \"metadataType\":0,\"title\":\"" ++ title ++ "\"") _
      ("\x7d,\"contentId\":\"http://" ++ s.serverIp ++ ":" ++ toString i_port ++
        "/stream\",\"streamType\":\"LIVE\",\"contentType\":\"" ++ mime ++ "\"")
    simp only [GetMedia, if_pos hti, if_pos hart, String.append_assoc]
    rfl
  · intro hcond hTitle hIp hMime
    apply strContains_false_of_missing_char _ _ ('[' : Char)
    · decide
    · by_cases hti : 0 < title.length
      · have hart : ¬ (0 < artwork.length ∧ ("http").toList.isPrefixOf artwork.toList) := by
          intro h
          exact hcond ⟨hti, h⟩
        have hG : GetMedia s i_port title artwork mime =
            "\"metadata\":\x7b \"metadataType\":0,\"title\":\"" ++ (title ++
              ("\"\x7d,\"contentId\":\"http://" ++ (s.serverIp ++ (":" ++
                (toString i_port ++ ("/stream\",\"streamType\":\"LIVE\",\"contentType\":\"" ++
                  (mime ++ "\""))))))) := by
          simp only [GetMedia, if_pos hti, if_neg hart, String.append_assoc]
          rfl
        rw [hG]
        intro hmem
        simp only [strToList_append, List.mem_append] at hmem
        rcases hmem with h | h | h | h | h | h | h | h
        · exact absurd h (by decide)
        · exact hTitle _ h rfl
        · exact absurd h (by decide)
        · exact hIp _ h rfl
        · exact absurd h (by decide)
        · exact toString_nat_no_bracket i_port _ h rfl
        · exact absurd h (by decide)
        · rcases h with h | h
          · exact hMime _ h rfl
          · exact absurd h (by decide)
      · have hG : GetMedia s i_port title artwork mime =
            "\"contentId\":\"http://" ++ (s.serverIp ++ (":" ++ (toString i_port ++
              ("/stream\",\"streamType\":\"LIVE\",\"contentType\":\"" ++
                (mime ++ "\""))))) := by
          simp only [GetMedia, if_neg hti, String.append_assoc]
          rfl
        rw [hG]
        intro hmem
        simp only [strToList_append, List.mem_append] at hmem
        rcases hmem with h | h | h | h | h | h
        · exact absurd h (by decide)
        · exact hIp _ h rfl
        · exact absurd h (by decide)
        · exact toString_nat_no_bracket i_port _ h rfl
        · exact absurd h (by decide)
        · rcases h with h | h
          · exact hMime _ h rfl
          · exact absurd h (by decide)

/- ===== Claims C5, C7, C9: request counters and the volume guard ===== -/

/-- Claim C5 counterexample: a msgPlayerSetVolume call with an out of range
    level returns at source line 404 before touching i_requestId, so not every
    msgPlayerSetVolume call increments the media player counter by exactly 1:
    here both counters stay at 0 and no message is sent. -/
theorem msgPlayerSetVolume_out_of_range_no_increment :
    msgPlayerSetVolume ⟨"10.0.0.5", 0, 0⟩ ("dest-1") ("42") 2 false =
      (⟨"10.0.0.5", 0, 0⟩, none) := by
  simp only [msgPlayerSetVolume, if_pos (Or.inr (by norm_num : (1 : ℚ) < 2))]

/-- Claim C5 (amended): both request counters start at 0 at construction;
    msgReceiverGetStatus and msgReceiverLaunchApp increment only the receiver
    counter by exactly 1; msgPlayerGetStatus, msgPlayerLoad, msgPlayerPlay,
    msgPlayerStop, msgPlayerPause, msgPlayerSeek, and every msgPlayerSetVolume
    call whose level lies within [0,1], increment only the media player
    counter by exactly 1; and each message carries a requestId field holding
    the corresponding counter value before that increment. Out of range
    set-volume calls are silently dropped and increment nothing. -/
theorem request_counters_per_namespace (s : CCState)
    (destinationId mediaSessionId currentTime title artwork mime : String)
    (i_port : Nat) (q : ℚ) (mute : Bool)
    (_hdest : destinationId ≠ "") (_hmsid : mediaSessionId ≠ "")
    (hq0 : 0 ≤ q) (hq1 : q ≤ 1) :
    (initialCCState.i_receiver_requestId = 0 ∧ initialCCState.i_requestId = 0) ∧
    ((msgReceiverGetStatus s).1 =
        { s with i_receiver_requestId := s.i_receiver_requestId + 1 } ∧
      strContains ("\"requestId\":" ++ toString s.i_receiver_requestId)
        ((msgReceiverGetStatus s).2.payload) = true) ∧
    ((msgReceiverLaunchApp s).1 =
        { s with i_receiver_requestId := s.i_receiver_requestId + 1 } ∧
      strContains ("\"requestId\":" ++ toString s.i_receiver_requestId)
        ((msgReceiverLaunchApp s).2.payload) = true) ∧
    ((msgPlayerGetStatus s destinationId).1 =
        { s with i_requestId := s.i_requestId + 1 } ∧
      strContains ("\"requestId\":" ++ toString s.i_requestId)
        ((msgPlayerGetStatus s destinationId).2.payload) = true) ∧
    ((msgPlayerLoad s destinationId i_port title artwork mime).1 =
        { s with i_requestId := s.i_requestId + 1 } ∧
      strContains ("\"requestId\":" ++ toString s.i_requestId)
        ((msgPlayerLoad s destinationId i_port title artwork mime).2.payload) = true) ∧
    ((msgPlayerPlay s destinationId mediaSessionId).1 =
        { s with i_requestId := s.i_requestId + 1 } ∧
      strContains ("\"requestId\":" ++ toString s.i_requestId)
        ((msgPlayerPlay s destinationId mediaSessionId).2.payload) = true) ∧
    ((msgPlayerStop s destinationId mediaSessionId).1 =
        { s with i_requestId := s.i_requestId + 1 } ∧
      strContains ("\"requestId\":" ++ toString s.i_requestId)
        ((msgPlayerStop s destinationId mediaSessionId).2.payload) = true) ∧
    ((msgPlayerPause s destinationId mediaSessionId).1 =
        { s with i_requestId := s.i_requestId + 1 } ∧
      strContains ("\"requestId\":" ++ toString s.i_requestId)
        ((msgPlayerPause s destinationId mediaSessionId).2.payload) = true) ∧
    ((msgPlayerSeek s destinationId mediaSessionId currentTime).1 =
        { s with i_requestId := s.i_requestId + 1 } ∧
      strContains ("\"requestId\":" ++ toString s.i_requestId)
        ((msgPlayerSeek s destinationId mediaSessionId currentTime).2.payload) = true) ∧
    msgPlayerSetVolume s destinationId mediaSessionId q mute =
      ({ s with i_requestId := s.i_requestId + 1 },
        some ⟨q, mute, mediaSessionId, s.i_requestId, destinationId⟩) := by
  refine ⟨⟨rfl, rfl⟩, ⟨rfl, ?_⟩, ⟨rfl, ?_⟩, ⟨rfl, ?_⟩, ⟨rfl, ?_⟩, ⟨rfl, ?_⟩, ⟨rfl, ?_⟩,
    ⟨rfl, ?_⟩, ⟨rfl, ?_⟩, ?_⟩
  · apply strContains_of_eq _ ("\x7b\"type\":\"GET_STATUS\",") _ ("\x7d")
    simp only [msgReceiverGetStatus, buildMessage, String.append_assoc]
  · apply strContains_of_eq _
      ("\x7b\"type\":\"LAUNCH\"," ++ "\"appId\":\"" ++ APP_ID ++ "\",") _ ("\x7d")
    simp only [msgReceiverLaunchApp, buildMessage, String.append_assoc]
  · apply strContains_of_eq _ ("\x7b\"type\":\"GET_STATUS\",") _ ("\x7d")
    simp only [msgPlayerGetStatus, pushMediaPlayerMessage, buildMessage, String.append_assoc]
  · apply strContains_of_eq _
      ("\x7b\"type\":\"LOAD\"," ++ "\"media\":\x7b" ++
        GetMedia s i_port title artwork mime ++ "\x7d," ++ "\"autoplay\":\"false\",") _
      ("\x7d")
    simp only [msgPlayerLoad, pushMediaPlayerMessage, buildMessage, String.append_assoc]
  · apply strContains_of_eq _
      ("\x7b\"type\":\"PLAY\"," ++ "\"mediaSessionId\":" ++ mediaSessionId ++ ",") _ ("\x7d")
    simp only [msgPlayerPlay, pushMediaPlayerMessage, buildMessage, String.append_assoc]
  · apply strContains_of_eq _
      ("\x7b\"type\":\"STOP\"," ++ "\"mediaSessionId\":" ++ mediaSessionId ++ ",") _ ("\x7d")
    simp only [msgPlayerStop, pushMediaPlayerMessage, buildMessage, String.append_assoc]
  · apply strContains_of_eq _
      ("\x7b\"type\":\"PAUSE\"," ++ "\"mediaSessionId\":" ++ mediaSessionId ++ ",") _ ("\x7d")
    simp only [msgPlayerPause, pushMediaPlayerMessage, buildMessage, String.append_assoc]
  · apply strContains_of_eq _
      ("\x7b\"type\":\"SEEK\"," ++ "\"currentTime\":" ++ currentTime ++ "," ++
        "\"mediaSessionId\":" ++ mediaSessionId ++ ",") _ ("\x7d")
    simp only [msgPlayerSeek, pushMediaPlayerMessage, buildMessage, String.append_assoc]
  · have hng : ¬ (q < 0 ∨ 1 < q) := by
      rintro (h | h)
      · exact absurd h (not_lt.mpr hq0)
      · exact absurd h (not_lt.mpr hq1)
    simp only [msgPlayerSetVolume, if_neg hng]

theorem request_counters_per_namespace_witness :
    (("dst" : String) ≠ "" ∧ ("42" : String) ≠ "" ∧ (0 : ℚ) ≤ 1 ∧ (1 : ℚ) ≤ 1) ∧
    msgPlayerSetVolume ⟨"10.0.0.5", 3, 5⟩ ("dst") ("42") 1 true =
      (⟨"10.0.0.5", 3, 6⟩, some ⟨1, true, "42", 5, "dst"⟩) :=
  ⟨⟨by decide, by decide, by decide, by decide⟩,
    (request_counters_per_namespace ⟨"10.0.0.5", 3, 5⟩ ("dst") ("42") ("0") ("T")
        ("http://a") ("m") 80 1 true (by decide) (by decide) (by decide)
        (by decide)).2.2.2.2.2.2.2.2.2⟩

/-- Claim C7: for a call with a nonempty media session id, a volume level
    strictly below 0 or strictly above 1 sends no message at all (silent
    drop, no error signal, the state untouched), while any level within
    [0,1], both boundaries included, sends exactly one SET_VOLUME message
    carrying that level and the given mute flag (source lines 399 to 414). -/
theorem msgPlayerSetVolume_range_check (s : CCState)
    (destinationId mediaSessionId : String) (q : ℚ) (mute : Bool)
    (_hmsid : mediaSessionId ≠ "") :
    ((q < 0 ∨ 1 < q) →
      msgPlayerSetVolume s destinationId mediaSessionId q mute = (s, none)) ∧
    (0 ≤ q → q ≤ 1 →
      msgPlayerSetVolume s destinationId mediaSessionId q mute =
        ({ s with i_requestId := s.i_requestId + 1 },
          some ⟨q, mute, mediaSessionId, s.i_requestId, destinationId⟩)) := by
  constructor
  · intro h
    simp only [msgPlayerSetVolume, if_pos h]
  · intro h0 h1
    have hng : ¬ (q < 0 ∨ 1 < q) := by
      rintro (h | h)
      · exact absurd h (not_lt.mpr h0)
      · exact absurd h (not_lt.mpr h1)
    simp only [msgPlayerSetVolume, if_neg hng]

theorem msgPlayerSetVolume_range_check_witness :
    (("42" : String) ≠ "" ∧ (0 : ℚ) ≤ 1 ∧ (1 : ℚ) ≤ 1) ∧
    msgPlayerSetVolume ⟨"10.0.0.5", 0, 0⟩ ("dst") ("42") 1 true =
      (⟨"10.0.0.5", 0, 1⟩, some ⟨1, true, "42", 0, "dst"⟩) :=
  ⟨⟨by decide, by decide, by decide⟩,
    (msgPlayerSetVolume_range_check ⟨"10.0.0.5", 0, 0⟩ ("dst") ("42") 1 true
      (by decide)).2 (by decide) (by decide)⟩

/-- Claim C9: a msgPlayerSetVolume call whose level is out of range leaves the
    whole connection state unchanged: the call returns the entry state with no
    message, and in particular the next media player message carries the same
    requestId it would have carried had the dropped call never happened. -/
theorem msgPlayerSetVolume_drop_preserves_state (s : CCState)
    (destinationId mediaSessionId : String) (q : ℚ) (mute : Bool)
    (h : q < 0 ∨ 1 < q) :
    msgPlayerSetVolume s destinationId mediaSessionId q mute = (s, none) ∧
    msgPlayerGetStatus (msgPlayerSetVolume s destinationId mediaSessionId q mute).1
        destinationId = msgPlayerGetStatus s destinationId := by
  have h1 : msgPlayerSetVolume s destinationId mediaSessionId q mute = (s, none) := by
    simp only [msgPlayerSetVolume, if_pos h]
  exact ⟨h1, by rw [h1]⟩

theorem msgPlayerSetVolume_drop_preserves_state_witness :
    ((2 : ℚ) < 0 ∨ (1 : ℚ) < 2) ∧
    (msgPlayerSetVolume ⟨"10.0.0.5", 0, 7⟩ ("dst") ("42") 2 true =
        (⟨"10.0.0.5", 0, 7⟩, none) ∧
      msgPlayerGetStatus (msgPlayerSetVolume ⟨"10.0.0.5", 0, 7⟩ ("dst") ("42") 2 true).1
          ("dst") = msgPlayerGetStatus ⟨"10.0.0.5", 0, 7⟩ ("dst")) :=
  ⟨Or.inr (by norm_num), msgPlayerSetVolume_drop_preserves_state ⟨"10.0.0.5", 0, 7⟩
    ("dst") ("42") 2 true (Or.inr (by norm_num))⟩

theorem GetMedia_descriptor_fields_witness :
    (0 < ("X" : String).length ∧ 0 < ("http://a" : String).length ∧
      ("http").toList.isPrefixOf ("http://a" : String).toList = true) ∧
    strContains (",\"images\":[\"" ++ "http://a" ++ "\"]")
      (GetMedia ⟨"10.0.0.5", 0, 0⟩ 8080 ("X") ("http://a") ("video/mp4")) = true :=
  ⟨⟨by decide, by decide, by decide⟩,
    (GetMedia_descriptor_fields ⟨"10.0.0.5", 0, 0⟩ 8080 ("X") ("http://a")
      ("video/mp4")).2.2.1 ⟨by decide, by decide, by decide⟩⟩
